import Mathlib

/-!
# Shallow embedding of the `mem_simulator` memory-hierarchy simulator

This file embeds the Python sources (`main_memory.py`, `l1cache.py`,
`l2cache.py`, `mem_ifc.py`, `sim.py`) as executable Lean definitions and
proves properties of them.

Conventions of the embedding:
* Python lists become `List Nat`; in-range indexing `xs[i]` becomes
  `xs.getD i 0` (all indices that occur are in range in the modelled runs);
  slicing `xs[a:b]` becomes `(xs.drop a).take (b - a)`.
* Python integers are unbounded, as are `Nat`/`Int`; `x & ~m` on
  non-negative ints is modelled by `x - (x &&& m)`.
* Mutating methods become state-passing functions; a method that performs
  no assignment returns its state unchanged.
* `math.ceil(a / b)` on the exact rational value is modelled by
  `ceil_div a b = (a + b - 1) / b`.
* The module `sim_constants.py` is not part of the sources; the constant
  `CPU_DATA_SIZE` it provides is modelled from the spec.
-/

/-- `math.ceil (a / b)` for natural `a` and positive natural `b`. -/
def ceil_div (a b : Nat) : Nat := (a + b - 1) / b

/-- Python `x & ~m` for non-negative ints: clear in `x` the bits of `m`. -/
def and_not (x m : Nat) : Nat := x - (x &&& m)

/-- `L1Cache.create_mask`: build the mask by the source's loop
(`length - 1` iterations of `mask |= 1; mask <<= 1`, then `mask |= 1`,
then shift left by `shift`). -/
def create_mask (length shift : Nat) : Nat :=
  let mask := (List.range (length - 1)).foldl (fun m _ => (m ||| 1) <<< 1) 0
  (mask ||| 1) <<< shift

/-- The byte-copy loop shared by the `write` methods:
`for cursor, mem_cursor in enumerate(range(start, start + len(data))):
   mem[mem_cursor] = data[cursor]`. -/
def copy_range (mem : List Nat) (start : Nat) (data : List Nat) : List Nat :=
  match data with
  | [] => mem
  | d :: ds => copy_range (mem.set start d) (start + 1) ds

/-- The four per-level counters of `MemoryInterface`. -/
structure MemStats where
  read_hits : Nat
  read_misses : Nat
  write_hits : Nat
  write_misses : Nat
deriving Repr, DecidableEq

/-- Fresh counters (all class attributes initialize to 0). -/
def initStats : MemStats := ⟨0, 0, 0, 0⟩

/-! ## MainMemory (`main_memory.py`) -/

/-- `MainMemory.MAIN_MEM_SIZE_IN_BYTES` (the source codes 16 KiB with a
TODO saying 16 MiB is the documented size). -/
def MAIN_MEM_SIZE_IN_BYTES : Nat := 16 * 1024

/-- `MainMemory.transfer_cycles`: `MEM_ACCESS_TIME = 100` plus
`(ceil(data_size / MEM_BUS_WIDTH) - 1) * MEM_BUS_ACCESS_TIME` with
`MEM_BUS_WIDTH = 64` and `MEM_BUS_ACCESS_TIME = 1`.  The source divides the
byte count `data_size` by the bus width in bits as-is. -/
def mm_transfer_cycles (data_size : Nat) : Nat :=
  100 + (ceil_div data_size 64 - 1) * 1

/-- `MainMemory.read`: `mem[address : address + data_size]` plus cycles. -/
def mm_read (mem : List Nat) (address data_size : Nat) : List Nat × Nat :=
  ((mem.drop address).take data_size, mm_transfer_cycles data_size)

/-- `MainMemory.write`: copy `data[0 : data_size]` into
`mem[address : address + data_size]`, return the new memory and cycles. -/
def mm_write (mem : List Nat) (address data_size : Nat) (data : List Nat) :
    List Nat × Nat :=
  (copy_range mem address (data.take data_size), mm_transfer_cycles data_size)

/-- `MemoryInterface.load` specialized to `MainMemory`
(`is_address_present` is constantly true, so only the hit path runs). -/
def mm_load (mem : List Nat) (st : MemStats) (address data_size : Nat) :
    (List Nat × Nat) × List Nat × MemStats :=
  (mm_read mem address data_size, mem,
    { st with read_hits := st.read_hits + 1 })

/-- `MemoryInterface.store` specialized to `MainMemory` (always a hit;
`mark_dirty` is ignored by `MainMemory.write`). -/
def mm_store (mem : List Nat) (st : MemStats) (address data_size : Nat)
    (data : List Nat) : Nat × List Nat × MemStats :=
  let (mem2, cyc) := mm_write mem address data_size data
  (cyc, mem2, { st with write_hits := st.write_hits + 1 })

/-- Structurally recursive computation of `int(log2(n))` (the fuel makes
the recursion kernel-reducible); `py_log2_eq_log2` below proves it equal
to `Nat.log2`. -/
def log2_loop : Nat → Nat → Nat
  | 0, _ => 0
  | fuel + 1, n => if 2 ≤ n then log2_loop fuel (n / 2) + 1 else 0

/-- `int(log2(n))`, equal to `Nat.log2 n` (see `py_log2_eq_log2`). -/
def py_log2 (n : Nat) : Nat := log2_loop n n

/-! ## L1Cache (`l1cache.py`), parameterized by the block size `bs` -/

/-- `L1Cache.CACHE_SIZE_IN_BYTES`. -/
def L1_CACHE_SIZE : Nat := 4 * 1024

/-- `num_of_blocks = CACHE_SIZE_IN_BYTES / block_size`. -/
def l1_num_blocks (bs : Nat) : Nat := L1_CACHE_SIZE / bs

/-- `offset_bits = int(log2(block_size))` (exact for powers of two). -/
def l1_offset_bits (bs : Nat) : Nat := py_log2 bs

/-- `index_bits = int(log2(num_of_blocks))`. -/
def l1_index_bits (bs : Nat) : Nat := py_log2 (l1_num_blocks bs)

/-- `tag_bits = ADDRESS_BITS - offset_bits - index_bits` with 24 address
bits. -/
def l1_tag_bits (bs : Nat) : Nat := 24 - l1_offset_bits bs - l1_index_bits bs

/-- `offset_mask = create_mask(offset_bits, 0)`. -/
def l1_offset_mask (bs : Nat) : Nat := create_mask (l1_offset_bits bs) 0

/-- `index_mask = create_mask(index_bits, offset_bits)`. -/
def l1_index_mask (bs : Nat) : Nat :=
  create_mask (l1_index_bits bs) (l1_offset_bits bs)

/-- `tag_mask = create_mask(tag_bits, offset_bits + index_bits)`. -/
def l1_tag_mask (bs : Nat) : Nat :=
  create_mask (l1_tag_bits bs) (l1_offset_bits bs + l1_index_bits bs)

/-- `tag_mem_mask = create_mask(tag_bits, 0)`. -/
def l1_tag_mem_mask (bs : Nat) : Nat := create_mask (l1_tag_bits bs) 0

/-- `dirty_bit_index = tag_bits`. -/
def l1_dirty_bit_index (bs : Nat) : Nat := l1_tag_bits bs

/-- `valid_bit_index = tag_bits + 1`. -/
def l1_valid_bit_index (bs : Nat) : Nat := l1_tag_bits bs + 1

/-- `dirty_mask = create_mask(1, dirty_bit_index)`. -/
def l1_dirty_mask (bs : Nat) : Nat := create_mask 1 (l1_dirty_bit_index bs)

/-- `valid_mask = create_mask(1, valid_bit_index)`. -/
def l1_valid_mask (bs : Nat) : Nat := create_mask 1 (l1_valid_bit_index bs)

/-- `L1Cache.address_to_offset`: the source computes
`address & self.offset_bits`, i.e. it ANDs the address with the *number*
of offset bits, not with `offset_mask`. -/
def l1_address_to_offset (bs address : Nat) : Nat :=
  address &&& l1_offset_bits bs

/-- `L1Cache.address_to_block_num`:
`(address & index_mask) >> offset_bits`. -/
def l1_address_to_block_num (bs address : Nat) : Nat :=
  (address &&& l1_index_mask bs) >>> l1_offset_bits bs

/-- `L1Cache.address_to_tag`:
`(address & tag_mask) >> (offset_bits + index_bits)`. -/
def l1_address_to_tag (bs address : Nat) : Nat :=
  (address &&& l1_tag_mask bs) >>> (l1_offset_bits bs + l1_index_bits bs)

/-- `L1Cache.address_from_tag_index`:
`(tag << (offset_bits + index_bits)) | (index << offset_bits)`. -/
def l1_address_from_tag_index (bs tag index : Nat) : Nat :=
  (tag <<< (l1_offset_bits bs + l1_index_bits bs)) |||
    (index <<< l1_offset_bits bs)

/-- `L1Cache.transfer_cycles`:
`MEM_HIT_TIME + (ceil(data_size / MEM_BUS_WIDTH) - 1) * MEM_BUS_ACCESS_TIME`
with `MEM_HIT_TIME = 1`, `MEM_BUS_WIDTH = 32` (bits) and
`MEM_BUS_ACCESS_TIME = 1`; the source divides the byte count by 32 as-is. -/
def l1_transfer_cycles (data_size : Nat) : Nat :=
  1 + (ceil_div data_size 32 - 1) * 1

/-- The mutable arrays of an `L1Cache` object. -/
structure L1Core where
  data_mem : List Nat
  tag_mem : List Nat
deriving Repr, DecidableEq

/-- The freshly constructed L1 state: `data_mem = [0] * 4096`,
`tag_mem = [0] * num_of_blocks`. -/
def l1_init (bs : Nat) : L1Core :=
  ⟨List.replicate L1_CACHE_SIZE 0, List.replicate (l1_num_blocks bs) 0⟩

/-- `L1Cache.is_address_present`: the valid bit is on and the cached tag
equals the address tag. -/
def l1_is_present (bs : Nat) (s : L1Core) (address : Nat) : Bool :=
  let index := l1_address_to_block_num bs address
  let cached_tag_mem := s.tag_mem.getD index 0
  let address_tag := l1_address_to_tag bs address
  let cache_tag := cached_tag_mem &&& l1_tag_mem_mask bs
  let is_valid := (cached_tag_mem &&& l1_valid_mask bs) >>> l1_valid_bit_index bs
  (is_valid != 0) && (address_tag == cache_tag)

/-- `L1Cache.read`: return
`data_mem[block_num * bs + offset : block_num * bs + offset + data_size]`
and the transfer cycles.  The method performs no assignment, so the state
component is returned unchanged. -/
def l1_read (bs : Nat) (s : L1Core) (address data_size : Nat) :
    (List Nat × Nat) × L1Core :=
  let block_num := l1_address_to_block_num bs address
  let offset := l1_address_to_offset bs address
  let start := block_num * bs + offset
  let data_read := (s.data_mem.drop start).take data_size
  ((data_read, l1_transfer_cycles data_size), s)

/-- `L1Cache.write`: copy the bytes into the slot, then set
`tag_mem[block_num] = tag | valid_mask` (OR'd with `dirty_mask` when
`mark_dirty`). -/
def l1_write (bs : Nat) (s : L1Core) (address : Nat) (mark_dirty : Bool)
    (data_size : Nat) (data : List Nat) : L1Core × Nat :=
  let block_num := l1_address_to_block_num bs address
  let offset := l1_address_to_offset bs address
  let start := block_num * bs + offset
  let data_mem2 := copy_range s.data_mem start (data.take data_size)
  let tag := l1_address_to_tag bs address
  let entry0 := tag ||| l1_valid_mask bs
  let entry := if mark_dirty then entry0 ||| l1_dirty_mask bs else entry0
  ({ data_mem := data_mem2, tag_mem := s.tag_mem.set block_num entry },
    l1_transfer_cycles data_size)

/-- `L1Cache.flush_if_needed`, parameterized by the next level's `store`
(the dynamic dispatch `self.next_mem.store`): if the slot indexed by the
address holds a valid and dirty entry, read its block, reconstruct the
victim address from the stored tag, store it to the next level and clear
the dirty bit; otherwise do nothing and return 0 cycles. -/
def l1_flush_if_needed {σ : Type} (bs : Nat)
    (next_store : σ → Nat → Nat → List Nat → Nat × σ)
    (s : L1Core) (next : σ) (address : Nat) : (L1Core × σ) × Nat :=
  let index := l1_address_to_block_num bs address
  let cached_tag_mem := s.tag_mem.getD index 0
  let is_valid := (cached_tag_mem &&& l1_valid_mask bs) >>> l1_valid_bit_index bs
  let is_dirty := (cached_tag_mem &&& l1_dirty_mask bs) >>> l1_dirty_bit_index bs
  if is_valid != 0 && is_dirty != 0 then
    let block_start_address := index * bs
    let data := (l1_read bs s block_start_address bs).1.1
    let tag := cached_tag_mem &&& l1_tag_mem_mask bs
    let flushed_address := l1_address_from_tag_index bs tag index
    let (cycles_elapsed, next2) := next_store next flushed_address bs data
    let s2 : L1Core :=
      { s with tag_mem :=
          s.tag_mem.set index (and_not cached_tag_mem (l1_dirty_mask bs)) }
    ((s2, next2), cycles_elapsed)
  else
    ((s, next), 0)

/-! ## L2Cache (`l2cache.py`), 2-way set associative, parameterized by `bs` -/

/-- `L2Cache.CACHE_SIZE_IN_BYTES`. -/
def L2_CACHE_SIZE : Nat := 32 * 1024

/-- `L2Cache.NUM_OF_WAYS`. -/
def L2_NUM_OF_WAYS : Nat := 2

/-- `num_of_lines = CACHE_SIZE_IN_BYTES / (NUM_OF_WAYS * block_size)`. -/
def l2_num_lines (bs : Nat) : Nat := L2_CACHE_SIZE / (L2_NUM_OF_WAYS * bs)

/-- `offset_bits = int(log2(block_size))`. -/
def l2_offset_bits (bs : Nat) : Nat := py_log2 bs

/-- `index_bits = int(log2(num_of_lines))`. -/
def l2_index_bits (bs : Nat) : Nat := py_log2 (l2_num_lines bs)

/-- `tag_bits = ADDRESS_BITS - index_bits - offset_bits`. -/
def l2_tag_bits (bs : Nat) : Nat := 24 - l2_index_bits bs - l2_offset_bits bs

/-- `offset_mask = create_mask(offset_bits, 0)`. -/
def l2_offset_mask (bs : Nat) : Nat := create_mask (l2_offset_bits bs) 0

/-- `index_mask = create_mask(index_bits, offset_bits)`. -/
def l2_index_mask (bs : Nat) : Nat :=
  create_mask (l2_index_bits bs) (l2_offset_bits bs)

/-- `tag_mask = create_mask(tag_bits, offset_bits + index_bits)`. -/
def l2_tag_mask (bs : Nat) : Nat :=
  create_mask (l2_tag_bits bs) (l2_offset_bits bs + l2_index_bits bs)

/-- `tag_mem_mask = create_mask(tag_bits, 0)`. -/
def l2_tag_mem_mask (bs : Nat) : Nat := create_mask (l2_tag_bits bs) 0

/-- `dirty_bit_index = tag_bits`. -/
def l2_dirty_bit_index (bs : Nat) : Nat := l2_tag_bits bs

/-- `valid_bit_index = tag_bits + 1`. -/
def l2_valid_bit_index (bs : Nat) : Nat := l2_tag_bits bs + 1

/-- `dirty_mask = create_mask(1, dirty_bit_index)`. -/
def l2_dirty_mask (bs : Nat) : Nat := create_mask 1 (l2_dirty_bit_index bs)

/-- `valid_mask = create_mask(1, valid_bit_index)`. -/
def l2_valid_mask (bs : Nat) : Nat := create_mask 1 (l2_valid_bit_index bs)

/-- `L2Cache.apply_mask`: `(num & mask) >> shift_right`. -/
def l2_apply_mask (num mask shift_right : Nat) : Nat :=
  (num &&& mask) >>> shift_right

/-- `L2Cache.address_from_tag_index`. -/
def l2_address_from_tag_index (bs tag index : Nat) : Nat :=
  (tag <<< (l2_offset_bits bs + l2_index_bits bs)) |||
    (index <<< l2_offset_bits bs)

/-- `L2Cache.transfer_cycles`: `MEM_HIT_TIME = 4` plus
`(ceil(8 * data_size / MEM_BUS_WIDTH) - 1) * MEM_BUS_ACCESS_TIME` with
`MEM_BUS_WIDTH = 256` bits (this level does convert bytes to bits). -/
def l2_transfer_cycles (data_size : Nat) : Nat :=
  4 + (ceil_div (8 * data_size) 256 - 1) * 1

/-- The mutable arrays of an `L2Cache` object:
`data_mem[set][way][byte]`, `tag_mem[set][way]`, `lru_mem[set]`. -/
structure L2Core where
  data_mem : List (List (List Nat))
  tag_mem : List (List Nat)
  lru_mem : List Nat
deriving Repr, DecidableEq

/-- The freshly constructed L2 state (all cells 0). -/
def l2_init (bs : Nat) : L2Core :=
  ⟨List.replicate (l2_num_lines bs)
      (List.replicate L2_NUM_OF_WAYS (List.replicate bs 0)),
    List.replicate (l2_num_lines bs) (List.replicate L2_NUM_OF_WAYS 0),
    List.replicate (l2_num_lines bs) 0⟩

/-- `L2Cache.address_present_in_way`: scan the two ways in order and
return the first way whose entry is valid with a matching tag, else -1. -/
def l2_present_in_way (bs : Nat) (s : L2Core) (address : Nat) : Int :=
  let index := l2_apply_mask address (l2_index_mask bs) (l2_offset_bits bs)
  let address_tag := l2_apply_mask address (l2_tag_mask bs)
    (l2_offset_bits bs + l2_index_bits bs)
  let cached_tag_mem := s.tag_mem.getD index []
  let way0 := cached_tag_mem.getD 0 0
  let way1 := cached_tag_mem.getD 1 0
  if l2_apply_mask way0 (l2_valid_mask bs) (l2_valid_bit_index bs) != 0 &&
      address_tag == l2_apply_mask way0 (l2_tag_mem_mask bs) 0 then 0
  else if l2_apply_mask way1 (l2_valid_mask bs) (l2_valid_bit_index bs) != 0 &&
      address_tag == l2_apply_mask way1 (l2_tag_mem_mask bs) 0 then 1
  else -1

/-- `L2Cache.is_address_present`: `present_in_way != -1`. -/
def l2_is_present (bs : Nat) (s : L2Core) (address : Nat) : Bool :=
  l2_present_in_way bs s address != -1

/-- Python list indexing for the way lists of length 2: a negative index
counts from the end, so `-1` addresses way 1. -/
def way_idx (way : Int) : Nat :=
  if way < 0 then (2 + way).toNat else way.toNat

/-- `L2Cache.read`: read
`data_mem[index][way][offset : offset + data_size]` where
`way = address_present_in_way(address)`, then flip the LRU bit of the set
when it equals the accessed way. -/
def l2_read (bs : Nat) (s : L2Core) (address data_size : Nat) :
    (List Nat × Nat) × L2Core :=
  let index := l2_apply_mask address (l2_index_mask bs) (l2_offset_bits bs)
  let way := l2_present_in_way bs s address
  let start := l2_apply_mask address (l2_offset_mask bs) 0
  let row := (s.data_mem.getD index []).getD (way_idx way) []
  let data_read := (row.drop start).take data_size
  let lru := s.lru_mem.getD index 0
  let s2 :=
    if (lru : Int) == way then
      { s with lru_mem := s.lru_mem.set index (1 - way).toNat }
    else s
  ((data_read, l2_transfer_cycles data_size), s2)

/-- `L2Cache.write`: pick the way (`present_in_way` when `mark_dirty`,
else the LRU victim), copy the bytes into
`data_mem[index][way][offset : offset + data_size]`, store the packed tag
entry, and flip the LRU bit of the set when it equals the written way. -/
def l2_write (bs : Nat) (s : L2Core) (address : Nat) (mark_dirty : Bool)
    (data_size : Nat) (data : List Nat) : L2Core × Nat :=
  let index := l2_apply_mask address (l2_index_mask bs) (l2_offset_bits bs)
  let way : Int :=
    if mark_dirty then l2_present_in_way bs s address
    else (s.lru_mem.getD index 0 : Nat)
  let wi := way_idx way
  let start := l2_apply_mask address (l2_offset_mask bs) 0
  let set_rows := s.data_mem.getD index []
  let row := set_rows.getD wi []
  let row2 := copy_range row start (data.take data_size)
  let data_mem2 := s.data_mem.set index (set_rows.set wi row2)
  let tag := l2_apply_mask address (l2_tag_mask bs)
    (l2_offset_bits bs + l2_index_bits bs)
  let entry0 := tag ||| l2_valid_mask bs
  let entry := if mark_dirty then entry0 ||| l2_dirty_mask bs else entry0
  let tag_mem2 :=
    s.tag_mem.set index ((s.tag_mem.getD index []).set wi entry)
  let lru := s.lru_mem.getD index 0
  let lru_mem2 :=
    if (lru : Int) == way then s.lru_mem.set index (1 - way).toNat
    else s.lru_mem
  ({ data_mem := data_mem2, tag_mem := tag_mem2, lru_mem := lru_mem2 },
    l2_transfer_cycles data_size)

/-- `L2Cache.flush_if_needed`, parameterized by the next level's `store`:
inspect the LRU way of the set; if valid and dirty, reconstruct the victim
address, read its full block through `L2Cache.read` (which flips the LRU
bit), flip the LRU bit back, store the block to the next level and clear
the dirty bit of the way the LRU now designates. -/
def l2_flush_if_needed {σ : Type} (bs : Nat)
    (next_store : σ → Nat → Nat → List Nat → Nat × σ)
    (s : L2Core) (next : σ) (address : Nat) : (L2Core × σ) × Nat :=
  let index := l2_apply_mask address (l2_index_mask bs) (l2_offset_bits bs)
  let lru0 := s.lru_mem.getD index 0
  let cached_tag_mem := (s.tag_mem.getD index []).getD lru0 0
  let is_valid := l2_apply_mask cached_tag_mem (l2_valid_mask bs)
    (l2_valid_bit_index bs)
  let is_dirty := l2_apply_mask cached_tag_mem (l2_dirty_mask bs)
    (l2_dirty_bit_index bs)
  if is_valid != 0 && is_dirty != 0 then
    let tag := l2_apply_mask cached_tag_mem (l2_tag_mem_mask bs) 0
    let flushed_address := l2_address_from_tag_index bs tag index
    let ((data, _), s2) := l2_read bs s flushed_address bs
    let s3 := { s2 with
      lru_mem := s2.lru_mem.set index (1 - s2.lru_mem.getD index 0) }
    let (cycles_elapsed, next2) := next_store next flushed_address bs data
    let lru3 := s3.lru_mem.getD index 0
    let row := s3.tag_mem.getD index []
    let row2 := row.set lru3 (and_not (row.getD lru3 0) (l2_dirty_mask bs))
    let s4 := { s3 with tag_mem := s3.tag_mem.set index row2 }
    ((s4, next2), cycles_elapsed)
  else
    ((s, next), 0)

/-! ## The shared miss-handling machine (`mem_ifc.py`) -/

/-- The capability set a cache level exposes to the shared `load`/`store`
algorithm, together with its next level's `load`/`store` (the dynamic
dispatch through `self` and `self.next_mem`).  `α` is the level's own
array state, `σ` the combined state of all levels below it. -/
structure LevelOps (α σ : Type) where
  is_present : α → Nat → Bool
  read : α → Nat → Nat → (List Nat × Nat) × α
  write : α → Nat → Bool → Nat → List Nat → α × Nat
  flush : α → σ → Nat → (α × σ) × Nat
  block_size : Nat
  next_load : σ → Nat → Nat → (List Nat × Nat) × σ
  next_store : σ → Nat → Nat → List Nat → Nat × σ

/-- `MemoryInterface.load`: on a hit bump `read_hits` and serve locally;
on a miss bump `read_misses`, fetch the full block from the next level,
flush a conflicting dirty victim, fill the slot clean, and charge the
local read of the requested size.  Returns the fetched block. -/
def mem_load {α σ : Type} (ops : LevelOps α σ) (s : α) (st : MemStats)
    (next : σ) (address block_size_req : Nat) :
    (List Nat × Nat) × α × MemStats × σ :=
  if ops.is_present s address then
    let (r, s2) := ops.read s address block_size_req
    (r, s2, { st with read_hits := st.read_hits + 1 }, next)
  else
    let st2 := { st with read_misses := st.read_misses + 1 }
    let block_start_address := address - address % ops.block_size
    let ((fetched_block, cycles_elapsed), next2) :=
      ops.next_load next block_start_address ops.block_size
    let ((s2, next3), flush_cycles) := ops.flush s next2 address
    let (s3, _) := ops.write s2 block_start_address false ops.block_size
      fetched_block
    let ((_, read_cycles), s4) := ops.read s3 address block_size_req
    ((fetched_block, cycles_elapsed + flush_cycles + read_cycles), s4, st2,
      next3)

/-- `MemoryInterface.store`: on a hit bump `write_hits` and write dirty;
on a miss bump `write_misses`, fetch the block, flush a dirty victim, fill
clean, then overlay the requested bytes dirty and charge that write. -/
def mem_store {α σ : Type} (ops : LevelOps α σ) (s : α) (st : MemStats)
    (next : σ) (address block_size_req : Nat) (data : List Nat) :
    Nat × α × MemStats × σ :=
  if ops.is_present s address then
    let (s2, cyc) := ops.write s address true block_size_req data
    (cyc, s2, { st with write_hits := st.write_hits + 1 }, next)
  else
    let st2 := { st with write_misses := st.write_misses + 1 }
    let block_start_address := address - address % ops.block_size
    let ((fetched_block, cycles_elapsed), next2) :=
      ops.next_load next block_start_address ops.block_size
    let ((s2, next3), flush_cycles) := ops.flush s next2 address
    let (s3, _) := ops.write s2 block_start_address false ops.block_size
      fetched_block
    let (s4, write_cycles) := ops.write s3 address true block_size_req data
    (cycles_elapsed + flush_cycles + write_cycles, s4, st2, next3)

/-! ## Hierarchy configurations (`sim.py` `run_sim`) -/

/-- The state below a cache whose next level is `MainMemory`. -/
abbrev MMNext : Type := List Nat × MemStats

/-- `MainMemory.load` packaged for use as a `next_load`. -/
def mm_load_next (p : MMNext) (address data_size : Nat) :
    (List Nat × Nat) × MMNext :=
  mm_load p.1 p.2 address data_size

/-- `MainMemory.store` packaged for use as a `next_store`. -/
def mm_store_next (p : MMNext) (address data_size : Nat) (data : List Nat) :
    Nat × MMNext :=
  mm_store p.1 p.2 address data_size data

/-- The `LevelOps` of an `L1Cache` with block size `bs` over an arbitrary
next level. -/
def l1_ops {σ : Type} (bs : Nat)
    (nload : σ → Nat → Nat → (List Nat × Nat) × σ)
    (nstore : σ → Nat → Nat → List Nat → Nat × σ) : LevelOps L1Core σ where
  is_present := l1_is_present bs
  read := l1_read bs
  write := l1_write bs
  flush := l1_flush_if_needed bs nstore
  block_size := bs
  next_load := nload
  next_store := nstore

/-- The `LevelOps` of an `L2Cache` with block size `bs` whose next level
is `MainMemory`. -/
def l2_ops (bs : Nat) : LevelOps L2Core MMNext where
  is_present := l2_is_present bs
  read := l2_read bs
  write := l2_write bs
  flush := l2_flush_if_needed bs mm_store_next
  block_size := bs
  next_load := mm_load_next
  next_store := mm_store_next

/-- `levels = 1`: the L1 cache sits directly on `MainMemory`. -/
def ops1 (bs : Nat) : LevelOps L1Core MMNext :=
  l1_ops bs mm_load_next mm_store_next

/-- The state below an L1 whose next level is an `L2Cache`. -/
abbrev L2Next : Type := L2Core × MemStats × MMNext

/-- `L2Cache` `load` (the shared algorithm) packaged as a `next_load`. -/
def l2_load_next (bs : Nat) (p : L2Next) (address data_size : Nat) :
    (List Nat × Nat) × L2Next :=
  mem_load (l2_ops bs) p.1 p.2.1 p.2.2 address data_size

/-- `L2Cache` `store` (the shared algorithm) packaged as a `next_store`. -/
def l2_store_next (bs : Nat) (p : L2Next) (address data_size : Nat)
    (data : List Nat) : Nat × L2Next :=
  mem_store (l2_ops bs) p.1 p.2.1 p.2.2 address data_size data

/-- `levels = 2`: the L1 cache sits on an L2 cache which sits on
`MainMemory`. -/
def ops2 (bs1 bs2 : Nat) : LevelOps L1Core L2Next :=
  l1_ops bs1 (l2_load_next bs2) (l2_store_next bs2)

/-! ## Trace driver and statistics (`sim.py`) -/

/-- Modelled from the spec: the constant `CPU_DATA_SIZE` comes from the
module `sim_constants.py`, which is missing from the sources; the spec
states "CPU words are 4 bytes (`CPU_DATA_SIZE`)". -/
def CPU_DATA_SIZE : Nat := 4

/-- `sim.big_endian_to_little_endian`: split a 32-bit big-endian word
into its four bytes, least significant first. -/
def big_endian_to_little_endian (data : Nat) : List Nat :=
  [data &&& 0x000000FF,
   (data &&& 0x0000FF00) >>> 8,
   (data &&& 0x00FF0000) >>> 16,
   (data &&& 0xFF000000) >>> 24]

/-- `dump_statistics`, L1 local miss rate:
`misses / (misses + hits)` guarded by `misses + hits > 0`, over the exact
rationals (Python uses binary floats; the values compared in this file
are far from any rounding boundary of either representation). -/
def l1_miss_rate_calc (st : MemStats) : ℚ :=
  let l1_misses : ℚ := (st.read_misses : ℚ) + (st.write_misses : ℚ)
  let l1_hits : ℚ := (st.read_hits : ℚ) + (st.write_hits : ℚ)
  if l1_misses + l1_hits > 0 then l1_misses / (l1_misses + l1_hits) else 0

/-- `dump_statistics`, global miss rate with an L2 present:
`l1_miss_rate * l2_miss_rate`, guarded by the L2 total. -/
def global_miss_rate_calc (l1st l2st : MemStats) : ℚ :=
  let l1_miss_rate := l1_miss_rate_calc l1st
  let l2_misses : ℚ := (l2st.read_misses : ℚ) + (l2st.write_misses : ℚ)
  let l2_hits : ℚ := (l2st.read_hits : ℚ) + (l2st.write_hits : ℚ)
  if l2_misses + l2_hits > 0 then
    l1_miss_rate * (l2_misses / (l2_misses + l2_hits))
  else 0

/-- The digits printed by `"{0:.4f}".format(q)` as an integer scaled by
`10^4`: formatting rounds the value to the nearest 4-decimal number.
(On a tie Python rounds the underlying binary double half-to-even; no
value considered in this file is at a tie.) -/
def format_4f (q : ℚ) : ℤ := round (q * 10000)

/-- Truncation of a rational to 4 decimal places (scaled by `10^4`), the
reading the spec claims for line 11 of the stats file. -/
def trunc_4f (q : ℚ) : ℤ := Int.floor (q * 10000)

/-- `dump_statistics`, line 11 for `levels = 2`, as printed (scaled by
`10^4`). -/
def stats_line11 (l1st l2st : MemStats) : ℤ :=
  format_4f (global_miss_rate_calc l1st l2st)

/-- `dump_statistics`, AMAT: the source computes
`mem_cycles_elapsed / mem_instructions_count` with no guard, so a run
with zero memory instructions raises `ZeroDivisionError` (modelled as
`none`) instead of producing a value. -/
def amat_calc (mem_cycles_elapsed mem_instructions_count : Nat) :
    Option ℚ :=
  if mem_instructions_count = 0 then none
  else some ((mem_cycles_elapsed : ℚ) / (mem_instructions_count : ℚ))

/-- The flush condition tested by `L1Cache.flush_if_needed`: the slot
indexed by the address holds a valid and dirty entry (the stored tag is
not consulted). -/
def l1_slot_valid_dirty (bs : Nat) (s : L1Core) (address : Nat) : Bool :=
  let cached_tag_mem := s.tag_mem.getD (l1_address_to_block_num bs address) 0
  ((cached_tag_mem &&& l1_valid_mask bs) >>> l1_valid_bit_index bs != 0) &&
    ((cached_tag_mem &&& l1_dirty_mask bs) >>> l1_dirty_bit_index bs != 0)

/-- The flush condition tested by `L2Cache.flush_if_needed`: the entry of
the LRU-designated way of the addressed set is valid and dirty. -/
def l2_lru_way_valid_dirty (bs : Nat) (s : L2Core) (address : Nat) : Bool :=
  let index := l2_apply_mask address (l2_index_mask bs) (l2_offset_bits bs)
  let cached_tag_mem := (s.tag_mem.getD index []).getD (s.lru_mem.getD index 0) 0
  (l2_apply_mask cached_tag_mem (l2_valid_mask bs) (l2_valid_bit_index bs) != 0) &&
    (l2_apply_mask cached_tag_mem (l2_dirty_mask bs) (l2_dirty_bit_index bs) != 0)

/-! ## Concrete states and runs used by the theorems -/

/-- An all-zero `memin` image at the source's memory size. -/
def memin_zero : List Nat := List.replicate MAIN_MEM_SIZE_IN_BYTES 0

/-- The little-endian bytes of the stored word `DEADBEEF`. -/
def deadbeef_bytes : List Nat := big_endian_to_little_endian 0xDEADBEEF

/-- `levels=1, b1=4`: the state after executing `0 S 000000 DEADBEEF`
from the initial state (trace scenario, first instruction). -/
def c6_after_store : Nat × L1Core × MemStats × MMNext :=
  mem_store (ops1 4) (l1_init 4) initStats (memin_zero, initStats) 0
    CPU_DATA_SIZE deadbeef_bytes

/-- `levels=1, b1=4`: the state after then executing `0 L 000000`. -/
def c6_after_load : (List Nat × Nat) × L1Core × MemStats × MMNext :=
  mem_load (ops1 4) c6_after_store.2.1 c6_after_store.2.2.1
    c6_after_store.2.2.2 0 CPU_DATA_SIZE

/-- `levels=2, b1=4, b2=8`: the state after executing
`0 S 000000 DEADBEEF` from the initial state. -/
def c5_after_store : Nat × L1Core × MemStats × L2Next :=
  mem_store (ops2 4 8) (l1_init 4) initStats
    (l2_init 8, initStats, (memin_zero, initStats)) 0 CPU_DATA_SIZE
    deadbeef_bytes

/-- `levels=2`: a flush of the dirty L1 block triggered by the
conflicting address `0x001000` (same L1 index 0, different tag). -/
def c5_flush : (L1Core × L2Next) × Nat :=
  l1_flush_if_needed 4 (l2_store_next 8) c5_after_store.2.1
    c5_after_store.2.2.2 4096

/-- An L1 state (`b1 = 4`) whose slot 0 is valid and dirty with tag 0:
`0x3000 = valid_bit (2^13) | dirty_bit (2^12)`. -/
def l1_slot0_valid_dirty : L1Core :=
  ⟨List.replicate 4096 0, (List.replicate 1024 0).set 0 0x3000⟩

/-- An L1 state (`b1 = 8`) whose block 0 holds bytes `0..7` and whose
slot 0 is valid with tag 0. -/
def c2_block_state : L1Core :=
  ⟨List.range 8 ++ List.replicate 4088 0,
    (List.replicate 512 0).set 0 (l1_valid_mask 8)⟩

/-- An L2 state (`b2 = 8`) holding one clean block at address 0. -/
def c10_l2_state : L2Core :=
  (l2_write 8 (l2_init 8) 0 false 8 (List.replicate 8 0)).1

/-- L1 counters with 3 misses and no hit (miss rate 1). -/
def c8_l1_stats : MemStats := ⟨0, 3, 0, 0⟩

/-- L2 counters with 2 misses and 1 hit (miss rate 2/3). -/
def c8_l2_stats : MemStats := ⟨1, 2, 0, 0⟩

/-- A one-set L2 state whose way 0 is valid and dirty (entry `0xC00`,
i.e. valid and dirty bits over tag 0) holding block bytes `1..8`; a
concrete input for witnesses. -/
def l2_small_dirty : L2Core :=
  ⟨[[[1, 2, 3, 4, 5, 6, 7, 8], [0, 0, 0, 0, 0, 0, 0, 0]]], [[0xC00, 0]], [0]⟩

/-! ## Helper lemmas -/

theorem log2_loop_eq_log2 (fuel : Nat) :
    ∀ n : Nat, n ≤ fuel → log2_loop fuel n = Nat.log2 n := by
  induction fuel with
  | zero =>
      intro n h
      have hn : n = 0 := by omega
      subst hn
      rw [log2_loop, Nat.log2]
      norm_num
  | succ f ih =>
      intro n h
      rw [log2_loop]
      by_cases h2 : 2 ≤ n
      · rw [if_pos h2, ih (n / 2) (by omega)]
        conv_rhs => rw [Nat.log2]
        rw [if_pos h2]
      · rw [if_neg h2]
        conv_rhs => rw [Nat.log2]
        rw [if_neg h2]

theorem py_log2_eq_log2 (n : Nat) : py_log2 n = Nat.log2 n :=
  log2_loop_eq_log2 n n (Nat.le_refl n)

theorem two_mul_or_one (x : Nat) : (2 * x) ||| 1 = 2 * x + 1 := by
  apply Nat.eq_of_testBit_eq
  intro j
  cases j with
  | zero =>
      simp [Nat.testBit_zero, Nat.mul_add_mod]
  | succ i =>
      rw [Nat.testBit_succ, Nat.testBit_succ, Nat.or_div_two]
      have h1 : (1 : Nat) / 2 = 0 := by omega
      have h2 : (2 * x + 1) / 2 = x := by omega
      have h3 : (2 * x) / 2 = x := by omega
      rw [h1, h2, h3, Nat.or_zero]

theorem mask_loop_eq (n : Nat) :
    (List.range n).foldl (fun m _ => (m ||| 1) <<< 1) 0 = 2 ^ (n + 1) - 2 := by
  induction n with
  | zero => simp
  | succ k ih =>
      rw [List.range_succ, List.foldl_append, ih]
      have hk := Nat.one_le_two_pow (n := k)
      have h1 : 2 ^ (k + 1) - 2 = 2 * (2 ^ k - 1) := by
        rw [Nat.pow_succ]; omega
      simp only [List.foldl_cons, List.foldl_nil, h1, two_mul_or_one,
        Nat.shiftLeft_eq]
      rw [Nat.pow_succ, Nat.pow_succ]
      ring_nf
      omega

theorem create_mask_eq (l sh : Nat) (hl : 1 ≤ l) :
    create_mask l sh = (2 ^ l - 1) <<< sh := by
  obtain ⟨m, rfl⟩ : ∃ m, l = m + 1 := ⟨l - 1, by omega⟩
  have hm := Nat.one_le_two_pow (n := m)
  simp only [create_mask, Nat.add_sub_cancel, mask_loop_eq]
  have h1 : 2 ^ (m + 1) - 2 = 2 * (2 ^ m - 1) := by rw [Nat.pow_succ]; omega
  have h2 : 2 * (2 ^ m - 1) + 1 = 2 ^ (m + 1) - 1 := by rw [Nat.pow_succ]; omega
  rw [h1, two_mul_or_one, h2]

theorem create_mask_one (sh : Nat) : create_mask 1 sh = 2 ^ sh := by
  rw [create_mask_eq 1 sh (by omega), Nat.shiftLeft_eq]; omega

theorem shiftLeft_shiftRight_self (y n : Nat) : (y <<< n) >>> n = y := by
  rw [Nat.shiftLeft_eq, Nat.shiftRight_eq_div_pow]
  exact Nat.mul_div_cancel _ (Nat.pos_pow_of_pos n (by omega))

theorem extract_mid (hi y lo k : Nat) (hy : y < 2 ^ k) :
    (hi <<< (lo + k) ||| y <<< lo) &&& ((2 ^ k - 1) <<< lo) = y <<< lo := by
  apply Nat.eq_of_testBit_eq
  intro j
  simp only [Nat.testBit_and, Nat.testBit_or, Nat.testBit_shiftLeft,
    Nat.testBit_two_pow_sub_one]
  rcases Nat.lt_or_ge j lo with h1 | h1
  · simp [show ¬ (j ≥ lo) by omega]
  · rcases Nat.lt_or_ge j (lo + k) with h2 | h2
    · simp [show ¬ (j ≥ lo + k) by omega, h1, show j - lo < k by omega]
    · have h3 : y.testBit (j - lo) = false :=
        Nat.testBit_lt_two_pow (lt_of_lt_of_le hy (Nat.pow_le_pow_right (by omega) (by omega)))
      simp [show ¬ (j - lo < k) by omega, h3]

theorem extract_top (t low m k : Nat) (ht : t < 2 ^ k) (hlow : low < 2 ^ m) :
    (t <<< m ||| low) &&& ((2 ^ k - 1) <<< m) = t <<< m := by
  apply Nat.eq_of_testBit_eq
  intro j
  simp only [Nat.testBit_and, Nat.testBit_or, Nat.testBit_shiftLeft,
    Nat.testBit_two_pow_sub_one]
  rcases Nat.lt_or_ge j m with h1 | h1
  · simp [show ¬ (j ≥ m) by omega]
  · have hlj : low.testBit j = false :=
      Nat.testBit_lt_two_pow (lt_of_lt_of_le hlow (Nat.pow_le_pow_right (by omega) h1))
    rcases Nat.lt_or_ge j (m + k) with h2 | h2
    · simp [h1, hlj, show j - m < k by omega]
    · have h3 : t.testBit (j - m) = false :=
        Nat.testBit_lt_two_pow (lt_of_lt_of_le ht (Nat.pow_le_pow_right (by omega) (by omega)))
      simp [show ¬ (j - m < k) by omega, h3]

theorem shiftLeft_and_lt (y n m : Nat) (hm : m < 2 ^ n) : (y <<< n) &&& m = 0 := by
  apply Nat.eq_of_testBit_eq
  intro j
  simp only [Nat.testBit_and, Nat.testBit_shiftLeft, Nat.zero_testBit]
  rcases Nat.lt_or_ge j n with h1 | h1
  · simp [show ¬ (j ≥ n) by omega]
  · have h2 : m.testBit j = false :=
      Nat.testBit_lt_two_pow (lt_of_lt_of_le hm (Nat.pow_le_pow_right (by omega) h1))
    simp [h2]

theorem and_two_pow_shiftRight (x n : Nat) : (x &&& 2 ^ n) >>> n = (x.testBit n).toNat := by
  rw [Nat.and_two_pow, Nat.shiftRight_eq_div_pow]
  exact Nat.mul_div_cancel _ (Nat.pos_pow_of_pos n (by omega))

theorem and_mask_shift_le (a k sh : Nat) :
    (a &&& ((2 ^ k - 1) <<< sh)) >>> sh ≤ 2 ^ k - 1 := by
  rw [Nat.shiftRight_eq_div_pow]
  refine le_trans (Nat.div_le_div_right (Nat.and_le_right)) ?h
  rw [Nat.shiftLeft_eq, Nat.mul_div_cancel _ (Nat.pos_pow_of_pos sh (by omega))]

theorem entry_low (t k : Nat) (ht : t < 2 ^ k) :
    (t ||| 2 ^ (k + 1)) &&& (2 ^ k - 1) = t := by
  rw [Nat.and_pow_two_sub_one_eq_mod]
  apply Nat.eq_of_testBit_eq
  intro j
  rw [Nat.testBit_mod_two_pow]
  rcases Nat.lt_or_ge j k with h1 | h1
  · simp [h1, Nat.testBit_or, Nat.testBit_two_pow_of_ne (show k + 1 ≠ j by omega)]
  · simp [show ¬ (j < k) by omega,
      (Nat.testBit_lt_two_pow (lt_of_lt_of_le ht (Nat.pow_le_pow_right (by omega) h1))).symm]

theorem entry_low_dirty (t k : Nat) (ht : t < 2 ^ k) :
    ((t ||| 2 ^ (k + 1)) ||| 2 ^ k) &&& (2 ^ k - 1) = t := by
  rw [Nat.and_pow_two_sub_one_eq_mod]
  apply Nat.eq_of_testBit_eq
  intro j
  rw [Nat.testBit_mod_two_pow]
  rcases Nat.lt_or_ge j k with h1 | h1
  · simp [h1, Nat.testBit_or, Nat.testBit_two_pow_of_ne (show k + 1 ≠ j by omega),
      Nat.testBit_two_pow_of_ne (show k ≠ j by omega)]
  · simp [show ¬ (j < k) by omega,
      (Nat.testBit_lt_two_pow (lt_of_lt_of_le ht (Nat.pow_le_pow_right (by omega) h1))).symm]

theorem entry_valid (t k : Nat) :
    ((t ||| 2 ^ (k + 1)) &&& 2 ^ (k + 1)) >>> (k + 1) = 1 := by
  rw [and_two_pow_shiftRight]
  simp [Nat.testBit_or, Nat.testBit_two_pow_self]

theorem entry_valid_dirty (t k : Nat) :
    (((t ||| 2 ^ (k + 1)) ||| 2 ^ k) &&& 2 ^ (k + 1)) >>> (k + 1) = 1 := by
  rw [and_two_pow_shiftRight]
  simp [Nat.testBit_or, Nat.testBit_two_pow_self]

theorem entry_dirty_clean (t k : Nat) (ht : t < 2 ^ k) :
    ((t ||| 2 ^ (k + 1)) &&& 2 ^ k) >>> k = 0 := by
  rw [and_two_pow_shiftRight]
  simp [Nat.testBit_or, Nat.testBit_lt_two_pow ht,
    Nat.testBit_two_pow_of_ne (show k + 1 ≠ k by omega)]

theorem entry_dirty_set (t k : Nat) :
    (((t ||| 2 ^ (k + 1)) ||| 2 ^ k) &&& 2 ^ k) >>> k = 1 := by
  rw [and_two_pow_shiftRight]
  simp [Nat.testBit_or, Nat.testBit_two_pow_self]

theorem and_not_two_pow (e n : Nat) : (and_not e (2 ^ n)) &&& 2 ^ n = 0 := by
  unfold and_not
  cases h : e.testBit n with
  | false =>
      have h0 : e &&& 2 ^ n = 0 := by rw [Nat.and_two_pow, h]; simp
      rw [h0, Nat.sub_zero, h0]
  | true =>
      have h1 : e &&& 2 ^ n = 2 ^ n := by rw [Nat.and_two_pow, h]; simp
      rw [h1]
      have hge : 2 ^ n ≤ e := Nat.testBit_implies_ge h
      have hodd : e / 2 ^ n % 2 = 1 := by
        have := Nat.testBit_to_div_mod (x := e) (i := n)
        rw [h] at this
        exact of_decide_eq_true this.symm
      have hq : 1 ≤ e / 2 ^ n := (Nat.one_le_div_iff (Nat.pos_pow_of_pos n (by omega))).mpr hge
      obtain ⟨q, hq'⟩ : ∃ q, e / 2 ^ n = q + 1 := ⟨e / 2 ^ n - 1, by omega⟩
      have hmod := Nat.div_add_mod e (2 ^ n)
      have hrlt : e % 2 ^ n < 2 ^ n := Nat.mod_lt _ (Nat.pos_pow_of_pos n (by omega))
      have hsub : e - 2 ^ n = 2 ^ n * q + e % 2 ^ n := by
        rw [hq'] at hmod
        have h2 : 2 ^ n * (q + 1) = 2 ^ n * q + 2 ^ n := by ring
        rw [h2] at hmod
        omega
      have hdiv : (e - 2 ^ n) / 2 ^ n = q := by
        rw [hsub, Nat.mul_add_div (Nat.pos_pow_of_pos n (by omega)),
          Nat.div_eq_of_lt hrlt]
        omega
      have hbit : (e - 2 ^ n).testBit n = false := by
        rw [Nat.testBit_to_div_mod, hdiv]
        have hq2 : q % 2 = 0 := by omega
        simp [hq2]
      rw [Nat.and_two_pow, hbit]
      simp

theorem list_getD_set_self {α : Type} (l : List α) (i : Nat) (a d : α)
    (h : i < l.length) : (l.set i a).getD i d = a := by
  simp [List.getD, List.getElem?_set_self h]

theorem list_getD_set_ne {α : Type} (l : List α) (i j : Nat) (a d : α)
    (h : i ≠ j) : (l.set i a).getD j d = l.getD j d := by
  simp [List.getD, List.getElem?_set_ne h]

theorem list_getD_replicate {α : Type} (n i : Nat) (a d : α) (h : i < n) :
    (List.replicate n a).getD i d = a := by
  simp [List.getD, List.getElem?_replicate, h]

theorem copy_range_length (data : List Nat) :
    ∀ (mem : List Nat) (start : Nat),
      (copy_range mem start data).length = mem.length := by
  induction data with
  | nil => intro mem start; rfl
  | cons d ds ih =>
      intro mem start
      rw [copy_range, ih, List.length_set]

theorem copy_range_getD_lt (data : List Nat) :
    ∀ (mem : List Nat) (start i : Nat), i < start →
      (copy_range mem start data).getD i 0 = mem.getD i 0 := by
  induction data with
  | nil => intro mem start i _; rfl
  | cons d ds ih =>
      intro mem start i h
      rw [copy_range, ih _ _ _ (by omega), list_getD_set_ne _ _ _ _ _ (by omega)]

theorem copy_range_getD_in (data : List Nat) :
    ∀ (mem : List Nat) (start i : Nat), i < data.length →
      start + data.length ≤ mem.length →
      (copy_range mem start data).getD (start + i) 0 = data.getD i 0 := by
  induction data with
  | nil => intro mem start i h _; simp at h
  | cons d ds ih =>
      intro mem start i h hlen
      rw [copy_range]
      cases i with
      | zero =>
          rw [copy_range_getD_lt _ _ _ _ (by omega)]
          simp only [Nat.add_zero]
          rw [list_getD_set_self _ _ _ _ (by simp at hlen; omega)]
          rfl
      | succ j =>
          have h2 : start + (j + 1) = (start + 1) + j := by omega
          rw [h2, ih _ _ _ (by simp at h; omega) (by simp at hlen ⊢; omega)]
          rfl

theorem drop_take_getD (l : List Nat) (a b i : Nat) (hi : i < b) :
    ((l.drop a).take b).getD i 0 = l.getD (a + i) 0 := by
  simp [List.getD, List.getElem?_take_of_lt hi, List.getElem?_drop]

theorem drop_take_length (l : List Nat) (a b : Nat) (h : a + b ≤ l.length) :
    ((l.drop a).take b).length = b := by
  simp [List.length_take, List.length_drop]
  omega

/-! ## Claim theorems -/

/-- C1: the claim states `transfer_cycles(n) = HIT/ACCESS_TIME +
(ceil(8n / BUS_WIDTH) - 1) * BUS_ACCESS_TIME`.  The L1 and MainMemory
code divides the byte count by the bus width in bits without the factor
8: at `n = 8` L1 charges 1 cycle where the stated formula gives 2, and at
`n = 16` MainMemory charges 100 where the stated formula gives 101. -/
theorem c1_transfer_cycles_missing_factor8 :
    l1_transfer_cycles 8 = 1 ∧ 1 + (ceil_div (8 * 8) 32 - 1) * 1 = 2 ∧
    mm_transfer_cycles 16 = 100 ∧ 100 + (ceil_div (8 * 16) 64 - 1) * 1 = 101 := by
  decide

/-- C2: the claim states `read(a, n)` returns the bytes at
`index(a)*BS + offset(a)` with `offset(a)` the low `log2(BS)` bits of
`a`.  At `BS = 8`, `a = 4` (present, 4-byte aligned, `offset(a) = 4`),
the code returns `data_mem[0..4) = [0,1,2,3]` instead of the stated
`data_mem[4..8) = [4,5,6,7]`, because `address_to_offset` ANDs the
address with the bit count `offset_bits` instead of `offset_mask`. -/
theorem c2_read_wrong_offset :
    l1_is_present 8 c2_block_state 4 = true ∧
    4 % 8 = 4 ∧
    (c2_block_state.data_mem.drop (l1_address_to_block_num 8 4 * 8 + 4 % 8)).take 4
      = [4, 5, 6, 7] ∧
    (l1_read 8 c2_block_state 4 4).1.1 = [0, 1, 2, 3] := by
  decide

/-- C3 counterexample: a `write` with `mark_dirty = false` over a valid,
dirty entry with the same tag clears the dirty bit, where the claim
requires `dirty = (old dirty ∨ mark_dirty) = 1`. -/
theorem c3_overwrite_clears_dirty :
    l1_is_present 4 l1_slot0_valid_dirty 0 = true ∧
    (l1_slot0_valid_dirty.tag_mem.getD 0 0 &&& l1_dirty_mask 4) >>>
      l1_dirty_bit_index 4 = 1 ∧
    ((l1_write 4 l1_slot0_valid_dirty 0 false 4 [1, 2, 3, 4]).1.tag_mem.getD 0 0 &&&
      l1_dirty_mask 4) >>> l1_dirty_bit_index 4 = 0 := by
  decide

/-- C4 counterexample: `flush_if_needed` on a slot holding a valid and
dirty block with the SAME tag as the address still writes the block back
and returns nonzero cycles (100), where the claim requires a flush only
when the tags differ. -/
theorem c4_flush_despite_equal_tag :
    l1_address_to_tag 4 0 =
      l1_slot0_valid_dirty.tag_mem.getD 0 0 &&& l1_tag_mem_mask 4 ∧
    (l1_flush_if_needed 4 mm_store_next l1_slot0_valid_dirty
      (memin_zero, initStats) 0).2 = 100 := by
  decide

/-- C5 counterexample: with `levels = 2` (`b1 = 4`, `b2 = 8`), after the
reachable state produced by `0 S 000000 DEADBEEF`, the L1 flush triggered
by conflicting address `0x001000` returns nonzero cycles (4) and writes
the dirty block `[EF, BE, AD, DE]` (whose reconstructed victim address is
0) into L2 — MainMemory still holds `[0, 0, 0, 0]` at that address,
contradicting the claim for the `levels = 2` configuration. -/
theorem c5_flushed_bytes_stay_in_l2 :
    c5_flush.2 = 4 ∧
    l1_address_from_tag_index 4
      (c5_after_store.2.1.tag_mem.getD 0 0 &&& l1_tag_mem_mask 4) 0 = 0 ∧
    (l1_read 4 c5_after_store.2.1 0 4).1.1 = [0xEF, 0xBE, 0xAD, 0xDE] ∧
    c5_flush.1.2.2.2.1.take 4 = [0, 0, 0, 0] := by
  decide

/-- C6: `levels=1, b1=4`, trace `0 S 000000 DEADBEEF` then `0 L 000000`
against an all-zero memin: main memory still holds `00 00 00 00` at
addresses 0..3, the L1 data bytes at offsets 0..3 are the little-endian
`EF BE AD DE`, and the counters are `write_misses = 1`, `read_hits = 1`. -/
theorem c6_store_then_load_scenario :
    c6_after_load.2.2.2.1.take 4 = [0, 0, 0, 0] ∧
    c6_after_load.2.1.data_mem.take 4 = [0xEF, 0xBE, 0xAD, 0xDE] ∧
    c6_after_load.2.2.1.write_misses = 1 ∧
    c6_after_load.2.2.1.read_hits = 1 ∧
    c6_after_load.2.2.1.write_hits = 0 ∧
    c6_after_load.2.2.1.read_misses = 0 := by
  decide

/-- C8 counterexample: with L1 at 3 misses / 0 hits and L2 at 2 misses /
1 hit, the printed line 11 is `0.6667` (the format rounds) while the
product of the miss rates truncated to 4 decimals is `0.6666`. -/
theorem c8_line11_rounds_not_truncates :
    stats_line11 c8_l1_stats c8_l2_stats = 6667 ∧
    trunc_4f (global_miss_rate_calc c8_l1_stats c8_l2_stats) = 6666 := by
  simp only [stats_line11, format_4f, trunc_4f, global_miss_rate_calc,
    l1_miss_rate_calc, c8_l1_stats, c8_l2_stats]
  norm_num [round_eq]

/-- C9: the AMAT division `mem_cycles / mem_instruction_count` is NOT
guarded: with zero memory instructions the source raises
`ZeroDivisionError` (modelled by `none`) instead of emitting `0.0000`. -/
theorem c9_amat_division_unguarded (mem_cycles : Nat) :
    amat_calc mem_cycles 0 = none := by
  simp [amat_calc]

/-- The packed tag entry written by `l1_write` / `l2_write` and the three
fields extracted from it, for any level whose bit layout satisfies the
structural facts passed as hypotheses. -/
theorem write_entry_fields (tb : Nat) (t : Nat) (md : Bool)
    (ht : t < 2 ^ tb) :
    (((if md then (t ||| 2 ^ (tb + 1)) ||| 2 ^ tb else t ||| 2 ^ (tb + 1))
        &&& 2 ^ tb) >>> tb = if md then 1 else 0) ∧
    ((if md then (t ||| 2 ^ (tb + 1)) ||| 2 ^ tb else t ||| 2 ^ (tb + 1))
        &&& 2 ^ (tb + 1)) >>> (tb + 1) = 1 ∧
    (if md then (t ||| 2 ^ (tb + 1)) ||| 2 ^ tb else t ||| 2 ^ (tb + 1))
        &&& (2 ^ tb - 1) = t := by
  cases md with
  | false =>
      exact ⟨entry_dirty_clean t tb ht, entry_valid t tb, entry_low t tb ht⟩
  | true =>
      exact ⟨entry_dirty_set t tb, entry_valid_dirty t tb,
        entry_low_dirty t tb ht⟩

/-- `l1_write` stores at the written slot the packed entry
`tag(a) | valid | (dirty when mark_dirty)`; its dirty bit is exactly
`mark_dirty`, its valid bit 1 and its tag field `tag(a)`. -/
theorem l1_write_tag_entry_spec (bs : Nat) (htb : 1 ≤ l1_tag_bits bs)
    (hib : 1 ≤ l1_index_bits bs)
    (hnb : l1_num_blocks bs = 2 ^ l1_index_bits bs)
    (s : L1Core) (a : Nat) (md : Bool) (n : Nat) (data : List Nat)
    (hlen : s.tag_mem.length = l1_num_blocks bs) :
    ((l1_write bs s a md n data).1.tag_mem.getD
        (l1_address_to_block_num bs a) 0 &&& l1_dirty_mask bs) >>>
      l1_dirty_bit_index bs = (if md then 1 else 0) ∧
    ((l1_write bs s a md n data).1.tag_mem.getD
        (l1_address_to_block_num bs a) 0 &&& l1_valid_mask bs) >>>
      l1_valid_bit_index bs = 1 ∧
    (l1_write bs s a md n data).1.tag_mem.getD
        (l1_address_to_block_num bs a) 0 &&& l1_tag_mem_mask bs =
      l1_address_to_tag bs a := by
  have hidx : l1_address_to_block_num bs a < l1_num_blocks bs := by
    rw [hnb]
    have h1 : l1_address_to_block_num bs a ≤ 2 ^ l1_index_bits bs - 1 := by
      unfold l1_address_to_block_num l1_index_mask
      rw [create_mask_eq _ _ hib]
      exact and_mask_shift_le ..
    have h2 := Nat.one_le_two_pow (n := l1_index_bits bs)
    omega
  have ht : l1_address_to_tag bs a < 2 ^ l1_tag_bits bs := by
    have h1 : l1_address_to_tag bs a ≤ 2 ^ l1_tag_bits bs - 1 := by
      unfold l1_address_to_tag l1_tag_mask
      rw [create_mask_eq _ _ htb]
      exact and_mask_shift_le ..
    have h2 := Nat.one_le_two_pow (n := l1_tag_bits bs)
    omega
  have he : (l1_write bs s a md n data).1.tag_mem.getD
      (l1_address_to_block_num bs a) 0 =
      (if md then (l1_address_to_tag bs a ||| l1_valid_mask bs) |||
          l1_dirty_mask bs
        else l1_address_to_tag bs a ||| l1_valid_mask bs) := by
    simp only [l1_write]
    rw [list_getD_set_self _ _ _ _ (by rw [hlen]; exact hidx)]
  have hdm : l1_dirty_mask bs = 2 ^ l1_tag_bits bs := create_mask_one _
  have hvm : l1_valid_mask bs = 2 ^ (l1_tag_bits bs + 1) := create_mask_one _
  have htm : l1_tag_mem_mask bs = 2 ^ l1_tag_bits bs - 1 := by
    unfold l1_tag_mem_mask
    rw [create_mask_eq _ _ htb, Nat.shiftLeft_zero]
  rw [he, hdm, hvm, htm]
  unfold l1_dirty_bit_index l1_valid_bit_index
  exact write_entry_fields (l1_tag_bits bs) (l1_address_to_tag bs a) md ht

/-- C3 (amended): for every block size in {4,…,128}, `L1Cache.write` sets
the slot's dirty bit strictly from `mark_dirty` — also when it overwrites
a valid entry with the same tag (the source never ORs with the old dirty
bit) — and sets valid to 1 and the tag field to `tag(a)`. -/
theorem c3_write_dirty_strictly_from_mark (bs : Nat)
    (hbs : bs = 4 ∨ bs = 8 ∨ bs = 16 ∨ bs = 32 ∨ bs = 64 ∨ bs = 128)
    (s : L1Core) (a : Nat) (md : Bool) (n : Nat) (data : List Nat)
    (hlen : s.tag_mem.length = l1_num_blocks bs) :
    ((l1_write bs s a md n data).1.tag_mem.getD
        (l1_address_to_block_num bs a) 0 &&& l1_dirty_mask bs) >>>
      l1_dirty_bit_index bs = (if md then 1 else 0) ∧
    ((l1_write bs s a md n data).1.tag_mem.getD
        (l1_address_to_block_num bs a) 0 &&& l1_valid_mask bs) >>>
      l1_valid_bit_index bs = 1 ∧
    (l1_write bs s a md n data).1.tag_mem.getD
        (l1_address_to_block_num bs a) 0 &&& l1_tag_mem_mask bs =
      l1_address_to_tag bs a := by
  rcases hbs with rfl | rfl | rfl | rfl | rfl | rfl <;>
    exact l1_write_tag_entry_spec _ (by decide) (by decide) (by decide)
      s a md n data hlen

/-- Witness for `c3_write_dirty_strictly_from_mark` at `bs = 4`,
`a = 0`, `mark_dirty = false` over the dirty matching-tag slot. -/
theorem c3_write_dirty_strictly_from_mark_witness :
    ((l1_write 4 l1_slot0_valid_dirty 0 false 4 [1, 2, 3, 4]).1.tag_mem.getD
        (l1_address_to_block_num 4 0) 0 &&& l1_dirty_mask 4) >>>
      l1_dirty_bit_index 4 = (if false then 1 else 0) ∧
    ((l1_write 4 l1_slot0_valid_dirty 0 false 4 [1, 2, 3, 4]).1.tag_mem.getD
        (l1_address_to_block_num 4 0) 0 &&& l1_valid_mask 4) >>>
      l1_valid_bit_index 4 = 1 ∧
    (l1_write 4 l1_slot0_valid_dirty 0 false 4 [1, 2, 3, 4]).1.tag_mem.getD
        (l1_address_to_block_num 4 0) 0 &&& l1_tag_mem_mask 4 =
      l1_address_to_tag 4 0 :=
  c3_write_dirty_strictly_from_mark 4 (Or.inl rfl) l1_slot0_valid_dirty 0
    false 4 [1, 2, 3, 4]
    (by show ((List.replicate 1024 0).set 0 0x3000).length = l1_num_blocks 4
        rw [List.length_set, List.length_replicate]
        rfl)

/-- `l1_flush_if_needed` flushes exactly when `l1_slot_valid_dirty`: the
write-back cycles come from the next level's `store` (positive by
hypothesis), otherwise nothing changes; after a flush the slot's dirty
bit is cleared. -/
theorem l1_flush_spec {σ : Type} (bs : Nat)
    (ns : σ → Nat → Nat → List Nat → Nat × σ)
    (hpos : ∀ d a n data, 0 < (ns d a n data).1)
    (s : L1Core) (d : σ) (a : Nat)
    (hlen : l1_address_to_block_num bs a < s.tag_mem.length) :
    (0 < (l1_flush_if_needed bs ns s d a).2 ↔
      l1_slot_valid_dirty bs s a = true) ∧
    (l1_slot_valid_dirty bs s a = false →
      l1_flush_if_needed bs ns s d a = ((s, d), 0)) ∧
    (l1_slot_valid_dirty bs s a = true →
      ((l1_flush_if_needed bs ns s d a).1.1.tag_mem.getD
          (l1_address_to_block_num bs a) 0 &&& l1_dirty_mask bs) >>>
        l1_dirty_bit_index bs = 0) := by
  have hcond : l1_slot_valid_dirty bs s a =
      (((s.tag_mem.getD (l1_address_to_block_num bs a) 0 &&&
          l1_valid_mask bs) >>> l1_valid_bit_index bs != 0) &&
        ((s.tag_mem.getD (l1_address_to_block_num bs a) 0 &&&
          l1_dirty_mask bs) >>> l1_dirty_bit_index bs != 0)) := rfl
  cases hb : l1_slot_valid_dirty bs s a with
  | true =>
      have hb2 := hcond ▸ hb
      have heqC : (l1_flush_if_needed bs ns s d a).2 =
          (ns d (l1_address_from_tag_index bs
              (s.tag_mem.getD (l1_address_to_block_num bs a) 0 &&&
                l1_tag_mem_mask bs) (l1_address_to_block_num bs a)) bs
            (l1_read bs s (l1_address_to_block_num bs a * bs) bs).1.1).1 := by
        simp only [l1_flush_if_needed, hb2, if_true]
      have heqT : (l1_flush_if_needed bs ns s d a).1.1.tag_mem =
          s.tag_mem.set (l1_address_to_block_num bs a)
            (and_not (s.tag_mem.getD (l1_address_to_block_num bs a) 0)
              (l1_dirty_mask bs)) := by
        simp only [l1_flush_if_needed, hb2, if_true]
      refine ⟨?_, ?_, ?_⟩
      · rw [heqC]
        exact ⟨fun _ => rfl, fun _ => hpos ..⟩
      · intro hfalse; exact Bool.noConfusion hfalse
      · intro _
        rw [heqT, list_getD_set_self _ _ _ _ hlen]
        rw [show l1_dirty_mask bs = 2 ^ l1_tag_bits bs from create_mask_one _]
        rw [show l1_dirty_bit_index bs = l1_tag_bits bs from rfl]
        rw [and_not_two_pow, Nat.zero_shiftRight]
  | false =>
      have hb2 := hcond ▸ hb
      have heq : l1_flush_if_needed bs ns s d a = ((s, d), 0) := by
        simp only [l1_flush_if_needed, hb2, Bool.false_eq_true, if_false]
      refine ⟨?_, ?_, ?_⟩
      · rw [heq]
        simp
      · intro _; exact heq
      · intro htrue; exact Bool.noConfusion htrue

/-- `l2_read` touches only the LRU bit of the addressed set: data and tag
arrays are unchanged and every other set's LRU bit is unchanged. -/
theorem l2_read_frame (bs : Nat) (s : L2Core) (a n : Nat) :
    (l2_read bs s a n).2.data_mem = s.data_mem ∧
    (l2_read bs s a n).2.tag_mem = s.tag_mem ∧
    (l2_read bs s a n).2.lru_mem.length = s.lru_mem.length ∧
    ∀ j, j ≠ l2_apply_mask a (l2_index_mask bs) (l2_offset_bits bs) →
      (l2_read bs s a n).2.lru_mem.getD j 0 = s.lru_mem.getD j 0 := by
  by_cases h : ((s.lru_mem.getD
      (l2_apply_mask a (l2_index_mask bs) (l2_offset_bits bs)) 0 : Int) ==
        l2_present_in_way bs s a) = true
  · have hd : (l2_read bs s a n).2.data_mem = s.data_mem := by
      simp only [l2_read, h, if_true]
    have ht : (l2_read bs s a n).2.tag_mem = s.tag_mem := by
      simp only [l2_read, h, if_true]
    have hl : (l2_read bs s a n).2.lru_mem =
        s.lru_mem.set (l2_apply_mask a (l2_index_mask bs) (l2_offset_bits bs))
          (1 - l2_present_in_way bs s a).toNat := by
      simp only [l2_read, h, if_true]
    rw [hd, ht, hl]
    refine ⟨rfl, rfl, List.length_set .., fun j hj => ?_⟩
    exact list_getD_set_ne _ _ _ _ _ (by omega)
  · have he : (l2_read bs s a n).2 = s := by
      simp only [l2_read, h, if_false, Bool.false_eq_true]
    rw [he]
    exact ⟨rfl, rfl, rfl, fun j _ => rfl⟩

/-- `l2_flush_if_needed` flushes exactly when the LRU way of the
addressed set is valid and dirty (`l2_lru_way_valid_dirty`); otherwise
nothing changes; after a flush the entry at the way the final LRU
designates has its dirty bit cleared. -/
theorem l2_flush_spec {σ : Type} (bs : Nat)
    (ns : σ → Nat → Nat → List Nat → Nat × σ)
    (hpos : ∀ d a n data, 0 < (ns d a n data).1)
    (s : L2Core) (d : σ) (a : Nat)
    (hidxt : l2_apply_mask a (l2_index_mask bs) (l2_offset_bits bs) <
      s.tag_mem.length)
    (hidxl : l2_apply_mask a (l2_index_mask bs) (l2_offset_bits bs) <
      s.lru_mem.length)
    (hrow : (s.tag_mem.getD
      (l2_apply_mask a (l2_index_mask bs) (l2_offset_bits bs)) []).length = 2) :
    (0 < (l2_flush_if_needed bs ns s d a).2 ↔
      l2_lru_way_valid_dirty bs s a = true) ∧
    (l2_lru_way_valid_dirty bs s a = false →
      l2_flush_if_needed bs ns s d a = ((s, d), 0)) ∧
    (l2_lru_way_valid_dirty bs s a = true →
      (((l2_flush_if_needed bs ns s d a).1.1.tag_mem.getD
            (l2_apply_mask a (l2_index_mask bs) (l2_offset_bits bs)) []).getD
          ((l2_flush_if_needed bs ns s d a).1.1.lru_mem.getD
            (l2_apply_mask a (l2_index_mask bs) (l2_offset_bits bs)) 0) 0 &&&
        l2_dirty_mask bs) >>> l2_dirty_bit_index bs = 0) := by
  have hcond : l2_lru_way_valid_dirty bs s a =
      ((l2_apply_mask ((s.tag_mem.getD
          (l2_apply_mask a (l2_index_mask bs) (l2_offset_bits bs)) []).getD
            (s.lru_mem.getD
              (l2_apply_mask a (l2_index_mask bs) (l2_offset_bits bs)) 0) 0)
          (l2_valid_mask bs) (l2_valid_bit_index bs) != 0) &&
        (l2_apply_mask ((s.tag_mem.getD
          (l2_apply_mask a (l2_index_mask bs) (l2_offset_bits bs)) []).getD
            (s.lru_mem.getD
              (l2_apply_mask a (l2_index_mask bs) (l2_offset_bits bs)) 0) 0)
          (l2_dirty_mask bs) (l2_dirty_bit_index bs) != 0)) := rfl
  cases hb : l2_lru_way_valid_dirty bs s a with
  | true =>
      have hb2 := hcond ▸ hb
      refine ⟨?_, ?_, ?_⟩
      · simp only [l2_flush_if_needed, hb2, if_true]
        exact ⟨fun _ => trivial, fun _ => hpos ..⟩
      · intro hfalse; exact Bool.noConfusion hfalse
      · intro _
        simp only [l2_flush_if_needed, hb2, if_true]
        set idxe := l2_apply_mask a (l2_index_mask bs) (l2_offset_bits bs)
          with hidxe
        set fla := l2_address_from_tag_index bs
          (l2_apply_mask
            ((s.tag_mem.getD idxe []).getD (s.lru_mem.getD idxe 0) 0)
            (l2_tag_mem_mask bs) 0) idxe with hfla
        obtain ⟨hd2, ht2, hl2, _⟩ := l2_read_frame bs s fla bs
        have hidxt2 : idxe < s.tag_mem.length := by rw [hidxe]; exact hidxt
        have hidxl2 : idxe < s.lru_mem.length := by rw [hidxe]; exact hidxl
        have hrow2 : (s.tag_mem.getD idxe []).length = 2 := by
          rw [hidxe]; exact hrow
        have hLL : idxe < (l2_read bs s fla bs).2.lru_mem.length := by
          rw [hl2]; exact hidxl2
        rw [ht2]
        rw [list_getD_set_self _ _ _ _ hidxt2]
        rw [list_getD_set_self _ _ _ _ hLL]
        have hV : 1 - (l2_read bs s fla bs).2.lru_mem.getD idxe 0 <
            (s.tag_mem.getD idxe []).length := by rw [hrow2]; omega
        rw [list_getD_set_self _ _ _ _ hV]
        rw [show l2_dirty_mask bs = 2 ^ l2_tag_bits bs from create_mask_one _]
        rw [show l2_dirty_bit_index bs = l2_tag_bits bs from rfl]
        rw [and_not_two_pow, Nat.zero_shiftRight]
  | false =>
      have hb2 := hcond ▸ hb
      have heq : l2_flush_if_needed bs ns s d a = ((s, d), 0) := by
        simp only [l2_flush_if_needed, hb2, Bool.false_eq_true, if_false]
      refine ⟨?_, ?_, ?_⟩
      · rw [heq]
        simp
      · intro _; exact heq
      · intro htrue; exact Bool.noConfusion htrue

/-- `MainMemory.store` always charges a positive cycle count. -/
theorem mm_store_next_pos (d : MMNext) (a n : Nat) (data : List Nat) :
    0 < (mm_store_next d a n data).1 := by
  simp only [mm_store_next, mm_store, mm_write, mm_transfer_cycles]
  omega

/-- C4 (amended): at both cache levels, `flush_if_needed(a)` writes the
victim back (returning the next level's positive store cycles) and
clears the victim's dirty bit IF AND ONLY IF the slot that would receive
`a`'s block (L1: the directly indexed slot, L2: the LRU way of the set)
holds a valid and dirty block — the stored tag is never compared with
`tag(a)`, so a valid dirty block with the SAME tag is flushed too; in
every other case the call returns 0 and leaves all state unchanged. -/
theorem c4_flush_iff_valid_dirty {σ σ' : Type}
    (ns1 : σ → Nat → Nat → List Nat → Nat × σ)
    (hpos1 : ∀ d a n data, 0 < (ns1 d a n data).1)
    (ns2 : σ' → Nat → Nat → List Nat → Nat × σ')
    (hpos2 : ∀ d a n data, 0 < (ns2 d a n data).1)
    (bs1 bs2 : Nat) (s1 : L1Core) (d1 : σ) (a1 : Nat)
    (s2 : L2Core) (d2 : σ') (a2 : Nat)
    (h1 : l1_address_to_block_num bs1 a1 < s1.tag_mem.length)
    (h2t : l2_apply_mask a2 (l2_index_mask bs2) (l2_offset_bits bs2) <
      s2.tag_mem.length)
    (h2l : l2_apply_mask a2 (l2_index_mask bs2) (l2_offset_bits bs2) <
      s2.lru_mem.length)
    (h2r : (s2.tag_mem.getD
      (l2_apply_mask a2 (l2_index_mask bs2) (l2_offset_bits bs2)) []).length
        = 2) :
    ((0 < (l1_flush_if_needed bs1 ns1 s1 d1 a1).2 ↔
        l1_slot_valid_dirty bs1 s1 a1 = true) ∧
      (l1_slot_valid_dirty bs1 s1 a1 = false →
        l1_flush_if_needed bs1 ns1 s1 d1 a1 = ((s1, d1), 0)) ∧
      (l1_slot_valid_dirty bs1 s1 a1 = true →
        ((l1_flush_if_needed bs1 ns1 s1 d1 a1).1.1.tag_mem.getD
            (l1_address_to_block_num bs1 a1) 0 &&& l1_dirty_mask bs1) >>>
          l1_dirty_bit_index bs1 = 0)) ∧
    ((0 < (l2_flush_if_needed bs2 ns2 s2 d2 a2).2 ↔
        l2_lru_way_valid_dirty bs2 s2 a2 = true) ∧
      (l2_lru_way_valid_dirty bs2 s2 a2 = false →
        l2_flush_if_needed bs2 ns2 s2 d2 a2 = ((s2, d2), 0)) ∧
      (l2_lru_way_valid_dirty bs2 s2 a2 = true →
        (((l2_flush_if_needed bs2 ns2 s2 d2 a2).1.1.tag_mem.getD
              (l2_apply_mask a2 (l2_index_mask bs2) (l2_offset_bits bs2))
              []).getD
            ((l2_flush_if_needed bs2 ns2 s2 d2 a2).1.1.lru_mem.getD
              (l2_apply_mask a2 (l2_index_mask bs2) (l2_offset_bits bs2)) 0)
            0 &&& l2_dirty_mask bs2) >>> l2_dirty_bit_index bs2 = 0)) :=
  ⟨l1_flush_spec bs1 ns1 hpos1 s1 d1 a1 h1,
    l2_flush_spec bs2 ns2 hpos2 s2 d2 a2 h2t h2l h2r⟩

/-- Witness for `c4_flush_iff_valid_dirty`: small valid-and-dirty states
at both levels over `MainMemory`, both flushes return positive cycles. -/
theorem c4_flush_iff_valid_dirty_witness :
    0 < (l1_flush_if_needed 4 mm_store_next (⟨[], [0x3000]⟩ : L1Core)
        (memin_zero, initStats) 0).2 ∧
    0 < (l2_flush_if_needed 8 mm_store_next
        (⟨[], [[0xC00, 0]], [0]⟩ : L2Core) (memin_zero, initStats) 0).2 := by
  have h := c4_flush_iff_valid_dirty mm_store_next mm_store_next_pos
    mm_store_next mm_store_next_pos 4 8 (⟨[], [0x3000]⟩ : L1Core)
    (memin_zero, initStats) 0 (⟨[], [[0xC00, 0]], [0]⟩ : L2Core)
    (memin_zero, initStats) 0 (by decide) (by decide) (by decide) (by decide)
  exact ⟨h.1.1.mpr (by decide), h.2.1.mpr (by decide)⟩

/-- C8 (amended): when both levels have received at least one request,
line 11 of the stats file is the product of the two local miss rates
ROUNDED to the nearest 4-decimal value by `"{0:.4f}".format` — not
truncated. -/
theorem c8_line11_is_rounded_product (l1st l2st : MemStats)
    (h1 : 0 < l1st.read_misses + l1st.write_misses +
      (l1st.read_hits + l1st.write_hits))
    (h2 : 0 < l2st.read_misses + l2st.write_misses +
      (l2st.read_hits + l2st.write_hits)) :
    stats_line11 l1st l2st = round
      ((((l1st.read_misses : ℚ) + (l1st.write_misses : ℚ)) /
          (((l1st.read_misses : ℚ) + (l1st.write_misses : ℚ)) +
            ((l1st.read_hits : ℚ) + (l1st.write_hits : ℚ)))) *
        ((((l2st.read_misses : ℚ) + (l2st.write_misses : ℚ)) /
          (((l2st.read_misses : ℚ) + (l2st.write_misses : ℚ)) +
            ((l2st.read_hits : ℚ) + (l2st.write_hits : ℚ))))) * 10000) := by
  have hq1 : ((l1st.read_misses : ℚ) + (l1st.write_misses : ℚ)) +
      ((l1st.read_hits : ℚ) + (l1st.write_hits : ℚ)) > 0 := by
    exact_mod_cast h1
  have hq2 : ((l2st.read_misses : ℚ) + (l2st.write_misses : ℚ)) +
      ((l2st.read_hits : ℚ) + (l2st.write_hits : ℚ)) > 0 := by
    exact_mod_cast h2
  simp only [stats_line11, format_4f, global_miss_rate_calc,
    l1_miss_rate_calc, if_pos hq1, if_pos hq2]

/-- Witness for `c8_line11_is_rounded_product` at the concrete counters
(L1: 3 misses, L2: 2 misses and 1 hit). -/
theorem c8_line11_is_rounded_product_witness :
    stats_line11 c8_l1_stats c8_l2_stats = round
      ((((c8_l1_stats.read_misses : ℚ) + (c8_l1_stats.write_misses : ℚ)) /
          (((c8_l1_stats.read_misses : ℚ) + (c8_l1_stats.write_misses : ℚ)) +
            ((c8_l1_stats.read_hits : ℚ) + (c8_l1_stats.write_hits : ℚ)))) *
        ((((c8_l2_stats.read_misses : ℚ) + (c8_l2_stats.write_misses : ℚ)) /
          (((c8_l2_stats.read_misses : ℚ) + (c8_l2_stats.write_misses : ℚ)) +
            ((c8_l2_stats.read_hits : ℚ) + (c8_l2_stats.write_hits : ℚ))))) *
        10000) :=
  c8_line11_is_rounded_product c8_l1_stats c8_l2_stats (by decide) (by decide)

/-- The block number and (buggy) offset that `L1Cache.read` computes for
the block-aligned linear address `index * bs` used by the flush path: the
block number is `index` itself and the offset is 0. -/
theorem l1_block_start_fields (bs : Nat)
    (hob : bs = 2 ^ l1_offset_bits bs)
    (hib : 1 ≤ l1_index_bits bs)
    (index : Nat) (hidx : index < 2 ^ l1_index_bits bs) :
    l1_address_to_block_num bs (index * bs) = index ∧
    l1_address_to_offset bs (index * bs) = 0 := by
  have hshift : index * bs = index <<< l1_offset_bits bs := by
    rw [Nat.shiftLeft_eq]
    conv_lhs => rw [hob]
  constructor
  · unfold l1_address_to_block_num l1_index_mask
    rw [create_mask_eq _ _ hib, hshift]
    have h0 : index <<< l1_offset_bits bs =
        0 <<< (l1_offset_bits bs + l1_index_bits bs) |||
          index <<< l1_offset_bits bs := by
      rw [Nat.zero_shiftLeft, Nat.zero_or]
    rw [h0, extract_mid 0 index (l1_offset_bits bs) (l1_index_bits bs) hidx,
      shiftLeft_shiftRight_self]
  · unfold l1_address_to_offset
    rw [hshift]
    exact shiftLeft_and_lt index (l1_offset_bits bs) (l1_offset_bits bs)
      (Nat.lt_two_pow _)

/-- After a flush (to `MainMemory`) that returned nonzero cycles, the
slot's dirty bit is 0 and MainMemory holds the victim block's bytes at
the reconstructed victim address. -/
theorem l1_flush_mm_spec (bs : Nat)
    (hob : bs = 2 ^ l1_offset_bits bs)
    (hnb : l1_num_blocks bs = 2 ^ l1_index_bits bs)
    (hmul : l1_num_blocks bs * bs = L1_CACHE_SIZE)
    (hib : 1 ≤ l1_index_bits bs)
    (s : L1Core) (mm : List Nat) (st : MemStats) (a : Nat)
    (hdlen : s.data_mem.length = L1_CACHE_SIZE)
    (htlen : s.tag_mem.length = l1_num_blocks bs)
    (hmm : l1_address_from_tag_index bs
      (s.tag_mem.getD (l1_address_to_block_num bs a) 0 &&& l1_tag_mem_mask bs)
      (l1_address_to_block_num bs a) + bs ≤ mm.length)
    (hc : 0 < (l1_flush_if_needed bs mm_store_next s (mm, st) a).2) :
    ((l1_flush_if_needed bs mm_store_next s (mm, st) a).1.1.tag_mem.getD
        (l1_address_to_block_num bs a) 0 &&& l1_dirty_mask bs) >>>
      l1_dirty_bit_index bs = 0 ∧
    ∀ i, i < bs →
      (l1_flush_if_needed bs mm_store_next s (mm, st) a).1.2.1.getD
        (l1_address_from_tag_index bs
          (s.tag_mem.getD (l1_address_to_block_num bs a) 0 &&&
            l1_tag_mem_mask bs) (l1_address_to_block_num bs a) + i) 0 =
      s.data_mem.getD (l1_address_to_block_num bs a * bs + i) 0 := by
  have hbs1 : 1 ≤ bs := by
    rw [hob]; exact Nat.one_le_two_pow
  have hidxlt : l1_address_to_block_num bs a < l1_num_blocks bs := by
    rw [hnb]
    have h1 : l1_address_to_block_num bs a ≤ 2 ^ l1_index_bits bs - 1 := by
      unfold l1_address_to_block_num l1_index_mask
      rw [create_mask_eq _ _ hib]
      exact and_mask_shift_le ..
    have h2 := Nat.one_le_two_pow (n := l1_index_bits bs)
    omega
  have hlen : l1_address_to_block_num bs a < s.tag_mem.length := by
    rw [htlen]; exact hidxlt
  have hsp := l1_flush_spec bs mm_store_next mm_store_next_pos s (mm, st) a
    hlen
  have hb : l1_slot_valid_dirty bs s a = true := (hsp.1).mp hc
  refine ⟨hsp.2.2 hb, ?_⟩
  intro i hi
  have hb2 : (((s.tag_mem.getD (l1_address_to_block_num bs a) 0 &&&
      l1_valid_mask bs) >>> l1_valid_bit_index bs != 0) &&
      ((s.tag_mem.getD (l1_address_to_block_num bs a) 0 &&&
      l1_dirty_mask bs) >>> l1_dirty_bit_index bs != 0)) = true := hb
  have hfields := l1_block_start_fields bs hob hib
    (l1_address_to_block_num bs a) (by rw [← hnb]; exact hidxlt)
  have hbound : l1_address_to_block_num bs a * bs + bs ≤
      s.data_mem.length := by
    rw [hdlen, ← hmul]
    have h3 : l1_address_to_block_num bs a + 1 ≤ l1_num_blocks bs := hidxlt
    calc l1_address_to_block_num bs a * bs + bs
        = (l1_address_to_block_num bs a + 1) * bs := by ring
      _ ≤ l1_num_blocks bs * bs := Nat.mul_le_mul_right bs h3
  have heqM : (l1_flush_if_needed bs mm_store_next s (mm, st) a).1.2.1 =
      copy_range mm
        (l1_address_from_tag_index bs
          (s.tag_mem.getD (l1_address_to_block_num bs a) 0 &&&
            l1_tag_mem_mask bs) (l1_address_to_block_num bs a))
        ((((s.data_mem.drop
            (l1_address_to_block_num bs (l1_address_to_block_num bs a * bs) *
              bs + l1_address_to_offset bs
                (l1_address_to_block_num bs a * bs))).take bs).take bs)) := by
    simp only [l1_flush_if_needed, hb2, if_true, mm_store_next, mm_store,
      mm_write, l1_read]
  rw [heqM, hfields.1, hfields.2, Nat.add_zero]
  have hdata_len : ((s.data_mem.drop
      (l1_address_to_block_num bs a * bs)).take bs).length = bs :=
    drop_take_length _ _ _ hbound
  rw [List.take_of_length_le (le_of_eq hdata_len)]
  rw [copy_range_getD_in _ _ _ _ (by rw [hdata_len]; exact hi)
    (by rw [hdata_len]; exact hmm)]
  exact drop_take_getD _ _ _ _ hi

/-- OR distributes over a common left shift. -/
theorem lor_shiftLeft (a b n : Nat) :
    (a <<< n) ||| (b <<< n) = (a ||| b) <<< n := by
  apply Nat.eq_of_testBit_eq
  intro j
  simp only [Nat.testBit_or, Nat.testBit_shiftLeft]
  by_cases h : j ≥ n
  · simp [h]
  · simp [h]

/-- The reconstructed victim address `tag << (ob+ib) | index << ob` has
zero offset bits, and its index field is `index` again. -/
theorem victim_address_fields (tg idx ob ib : Nat) (hidx : idx < 2 ^ ib) :
    ((tg <<< (ob + ib) ||| idx <<< ob) &&& ((2 ^ ib - 1) <<< ob)) >>> ob =
      idx ∧
    (tg <<< (ob + ib) ||| idx <<< ob) &&& (2 ^ ob - 1) = 0 := by
  constructor
  · rw [extract_mid tg idx ob ib hidx, shiftLeft_shiftRight_self]
  · have hsh : tg <<< (ob + ib) = (tg <<< ib) <<< ob := by
      rw [Nat.shiftLeft_eq, Nat.shiftLeft_eq, Nat.shiftLeft_eq, Nat.pow_add]
      ring
    rw [hsh, lor_shiftLeft, Nat.and_pow_two_sub_one_eq_mod,
      Nat.shiftLeft_eq, Nat.mul_mod_left]

/-- After an L2 flush (to `MainMemory`) that returned nonzero cycles, the
LRU-designated entry is clean and MainMemory holds the victim block's
bytes at the reconstructed victim address.  The hypothesis `hpw` states
that the victim's tag is found at the LRU way itself (the invariant that
at most one way per set holds a given valid tag). -/
theorem l2_flush_mm_spec (bs : Nat)
    (h1ob : 1 ≤ l2_offset_bits bs) (h1ib : 1 ≤ l2_index_bits bs)
    (s : L2Core) (mm : List Nat) (st : MemStats) (a : Nat)
    (hidxt : l2_apply_mask a (l2_index_mask bs) (l2_offset_bits bs) <
      s.tag_mem.length)
    (hidxl : l2_apply_mask a (l2_index_mask bs) (l2_offset_bits bs) <
      s.lru_mem.length)
    (hrow : (s.tag_mem.getD
      (l2_apply_mask a (l2_index_mask bs) (l2_offset_bits bs)) []).length = 2)
    (hrowd : ((s.data_mem.getD
        (l2_apply_mask a (l2_index_mask bs) (l2_offset_bits bs)) []).getD
      (s.lru_mem.getD
        (l2_apply_mask a (l2_index_mask bs) (l2_offset_bits bs)) 0)
      []).length = bs)
    (hmm : l2_address_from_tag_index bs
        (l2_apply_mask ((s.tag_mem.getD
            (l2_apply_mask a (l2_index_mask bs) (l2_offset_bits bs)) []).getD
          (s.lru_mem.getD
            (l2_apply_mask a (l2_index_mask bs) (l2_offset_bits bs)) 0) 0)
          (l2_tag_mem_mask bs) 0)
        (l2_apply_mask a (l2_index_mask bs) (l2_offset_bits bs)) + bs ≤
      mm.length)
    (hpw : l2_present_in_way bs s
        (l2_address_from_tag_index bs
          (l2_apply_mask ((s.tag_mem.getD
              (l2_apply_mask a (l2_index_mask bs) (l2_offset_bits bs)) []).getD
            (s.lru_mem.getD
              (l2_apply_mask a (l2_index_mask bs) (l2_offset_bits bs)) 0) 0)
            (l2_tag_mem_mask bs) 0)
          (l2_apply_mask a (l2_index_mask bs) (l2_offset_bits bs))) =
      ((s.lru_mem.getD
        (l2_apply_mask a (l2_index_mask bs) (l2_offset_bits bs)) 0 : Nat) :
          Int))
    (hc : 0 < (l2_flush_if_needed bs mm_store_next s (mm, st) a).2) :
    (((l2_flush_if_needed bs mm_store_next s (mm, st) a).1.1.tag_mem.getD
          (l2_apply_mask a (l2_index_mask bs) (l2_offset_bits bs)) []).getD
        ((l2_flush_if_needed bs mm_store_next s (mm, st) a).1.1.lru_mem.getD
          (l2_apply_mask a (l2_index_mask bs) (l2_offset_bits bs)) 0) 0 &&&
      l2_dirty_mask bs) >>> l2_dirty_bit_index bs = 0 ∧
    ∀ i, i < bs →
      (l2_flush_if_needed bs mm_store_next s (mm, st) a).1.2.1.getD
        (l2_address_from_tag_index bs
          (l2_apply_mask ((s.tag_mem.getD
              (l2_apply_mask a (l2_index_mask bs) (l2_offset_bits bs)) []).getD
            (s.lru_mem.getD
              (l2_apply_mask a (l2_index_mask bs) (l2_offset_bits bs)) 0) 0)
            (l2_tag_mem_mask bs) 0)
          (l2_apply_mask a (l2_index_mask bs) (l2_offset_bits bs)) + i) 0 =
      ((s.data_mem.getD
          (l2_apply_mask a (l2_index_mask bs) (l2_offset_bits bs)) []).getD
        (s.lru_mem.getD
          (l2_apply_mask a (l2_index_mask bs) (l2_offset_bits bs)) 0)
        []).getD i 0 := by
  have hsp := l2_flush_spec bs mm_store_next mm_store_next_pos s (mm, st) a
    hidxt hidxl hrow
  have hb : l2_lru_way_valid_dirty bs s a = true := (hsp.1).mp hc
  refine ⟨hsp.2.2 hb, ?_⟩
  intro i hi
  set idxe := l2_apply_mask a (l2_index_mask bs) (l2_offset_bits bs)
    with hidxe
  set lru0 := s.lru_mem.getD idxe 0 with hlru0
  set tg := l2_apply_mask ((s.tag_mem.getD idxe []).getD lru0 0)
    (l2_tag_mem_mask bs) 0 with htg
  set fla := l2_address_from_tag_index bs tg idxe with hfla
  have hb2 : ((l2_apply_mask ((s.tag_mem.getD idxe []).getD lru0 0)
      (l2_valid_mask bs) (l2_valid_bit_index bs) != 0) &&
      (l2_apply_mask ((s.tag_mem.getD idxe []).getD lru0 0)
      (l2_dirty_mask bs) (l2_dirty_bit_index bs) != 0)) = true := hb
  have hidxb : idxe < 2 ^ l2_index_bits bs := by
    have h1 : idxe ≤ 2 ^ l2_index_bits bs - 1 := by
      rw [hidxe]
      unfold l2_apply_mask l2_index_mask
      rw [create_mask_eq _ _ h1ib]
      exact and_mask_shift_le ..
    have h2 := Nat.one_le_two_pow (n := l2_index_bits bs)
    omega
  have hvf := victim_address_fields tg idxe (l2_offset_bits bs)
    (l2_index_bits bs) hidxb
  have hflidx : l2_apply_mask fla (l2_index_mask bs) (l2_offset_bits bs) =
      idxe := by
    rw [hfla]
    unfold l2_apply_mask l2_index_mask l2_address_from_tag_index
    rw [create_mask_eq _ _ h1ib]
    exact hvf.1
  have hflst : l2_apply_mask fla (l2_offset_mask bs) 0 = 0 := by
    rw [hfla]
    unfold l2_apply_mask l2_offset_mask l2_address_from_tag_index
    rw [create_mask_eq _ _ h1ob, Nat.shiftLeft_zero, Nat.shiftRight_zero]
    exact hvf.2
  have hwi : way_idx ((lru0 : Nat) : Int) = lru0 := by
    simp [way_idx]
  have heqM : (l2_flush_if_needed bs mm_store_next s (mm, st) a).1.2.1 =
      copy_range mm fla
        (((((s.data_mem.getD (l2_apply_mask fla (l2_index_mask bs)
              (l2_offset_bits bs)) []).getD
            (way_idx (l2_present_in_way bs s fla)) []).drop
          (l2_apply_mask fla (l2_offset_mask bs) 0)).take bs).take bs) := by
    simp only [l2_flush_if_needed, hb2, if_true, mm_store_next, mm_store,
      mm_write, l2_read]
  rw [heqM, hflidx, hflst, hpw, hwi, List.drop_zero]
  have hlen2 : (((s.data_mem.getD idxe []).getD lru0 []).take bs).length =
      bs := by
    rw [List.length_take, hrowd, Nat.min_self]
  rw [List.take_of_length_le (le_of_eq hlen2)]
  rw [List.take_of_length_le (le_of_eq hrowd)]
  rw [copy_range_getD_in _ _ _ _ (by rw [hrowd]; exact hi)
    (by rw [hrowd]; exact hmm)]

/-- C5 (amended): after any `flush_if_needed` call that returns nonzero
cycles, the affected slot's dirty bit is 0 and the level that received
the write-back holds the flushed bytes: when the flushing level's next
level is MainMemory — L1 with `levels = 1`, or L2 — MainMemory holds the
flushed block's bytes at the victim address reconstructed from the
stored tag and the slot/set index.  (With `levels = 2` an L1 flush is
stored into L2 instead, and MainMemory need not hold the bytes — the
counterexample.)  The hypothesis `hpw` for L2 is the set-associativity
invariant that the victim's valid tag is found at the LRU way itself. -/
theorem c5_flush_nonzero_writes_back
    (bs1 : Nat)
    (hbs1 : bs1 = 4 ∨ bs1 = 8 ∨ bs1 = 16 ∨ bs1 = 32 ∨ bs1 = 64 ∨ bs1 = 128)
    (s1 : L1Core) (mm1 : List Nat) (st1 : MemStats) (a1 : Nat)
    (hdlen : s1.data_mem.length = L1_CACHE_SIZE)
    (htlen : s1.tag_mem.length = l1_num_blocks bs1)
    (hmm1 : l1_address_from_tag_index bs1
      (s1.tag_mem.getD (l1_address_to_block_num bs1 a1) 0 &&&
        l1_tag_mem_mask bs1) (l1_address_to_block_num bs1 a1) + bs1 ≤
      mm1.length)
    (hc1 : 0 < (l1_flush_if_needed bs1 mm_store_next s1 (mm1, st1) a1).2)
    (bs2 : Nat) (h2ob : 1 ≤ l2_offset_bits bs2)
    (h2ib : 1 ≤ l2_index_bits bs2)
    (s2 : L2Core) (mm2 : List Nat) (st2 : MemStats) (a2 : Nat)
    (hidxt : l2_apply_mask a2 (l2_index_mask bs2) (l2_offset_bits bs2) <
      s2.tag_mem.length)
    (hidxl : l2_apply_mask a2 (l2_index_mask bs2) (l2_offset_bits bs2) <
      s2.lru_mem.length)
    (hrow : (s2.tag_mem.getD
      (l2_apply_mask a2 (l2_index_mask bs2) (l2_offset_bits bs2)) []).length
        = 2)
    (hrowd : ((s2.data_mem.getD
        (l2_apply_mask a2 (l2_index_mask bs2) (l2_offset_bits bs2)) []).getD
      (s2.lru_mem.getD
        (l2_apply_mask a2 (l2_index_mask bs2) (l2_offset_bits bs2)) 0)
      []).length = bs2)
    (hmm2 : l2_address_from_tag_index bs2
        (l2_apply_mask ((s2.tag_mem.getD
            (l2_apply_mask a2 (l2_index_mask bs2) (l2_offset_bits bs2))
            []).getD
          (s2.lru_mem.getD
            (l2_apply_mask a2 (l2_index_mask bs2) (l2_offset_bits bs2)) 0) 0)
          (l2_tag_mem_mask bs2) 0)
        (l2_apply_mask a2 (l2_index_mask bs2) (l2_offset_bits bs2)) + bs2 ≤
      mm2.length)
    (hpw : l2_present_in_way bs2 s2
        (l2_address_from_tag_index bs2
          (l2_apply_mask ((s2.tag_mem.getD
              (l2_apply_mask a2 (l2_index_mask bs2) (l2_offset_bits bs2))
              []).getD
            (s2.lru_mem.getD
              (l2_apply_mask a2 (l2_index_mask bs2) (l2_offset_bits bs2)) 0)
              0)
            (l2_tag_mem_mask bs2) 0)
          (l2_apply_mask a2 (l2_index_mask bs2) (l2_offset_bits bs2))) =
      ((s2.lru_mem.getD
        (l2_apply_mask a2 (l2_index_mask bs2) (l2_offset_bits bs2)) 0 :
          Nat) : Int))
    (hc2 : 0 < (l2_flush_if_needed bs2 mm_store_next s2 (mm2, st2) a2).2) :
    (((l1_flush_if_needed bs1 mm_store_next s1 (mm1, st1) a1).1.1.tag_mem.getD
        (l1_address_to_block_num bs1 a1) 0 &&& l1_dirty_mask bs1) >>>
      l1_dirty_bit_index bs1 = 0 ∧
    ∀ i, i < bs1 →
      (l1_flush_if_needed bs1 mm_store_next s1 (mm1, st1) a1).1.2.1.getD
        (l1_address_from_tag_index bs1
          (s1.tag_mem.getD (l1_address_to_block_num bs1 a1) 0 &&&
            l1_tag_mem_mask bs1) (l1_address_to_block_num bs1 a1) + i) 0 =
      s1.data_mem.getD (l1_address_to_block_num bs1 a1 * bs1 + i) 0) ∧
    ((((l2_flush_if_needed bs2 mm_store_next s2 (mm2, st2) a2).1.1.tag_mem.getD
          (l2_apply_mask a2 (l2_index_mask bs2) (l2_offset_bits bs2)) []).getD
        ((l2_flush_if_needed bs2 mm_store_next s2 (mm2, st2) a2).1.1.lru_mem.getD
          (l2_apply_mask a2 (l2_index_mask bs2) (l2_offset_bits bs2)) 0) 0 &&&
      l2_dirty_mask bs2) >>> l2_dirty_bit_index bs2 = 0 ∧
    ∀ i, i < bs2 →
      (l2_flush_if_needed bs2 mm_store_next s2 (mm2, st2) a2).1.2.1.getD
        (l2_address_from_tag_index bs2
          (l2_apply_mask ((s2.tag_mem.getD
              (l2_apply_mask a2 (l2_index_mask bs2) (l2_offset_bits bs2))
              []).getD
            (s2.lru_mem.getD
              (l2_apply_mask a2 (l2_index_mask bs2) (l2_offset_bits bs2)) 0)
              0)
            (l2_tag_mem_mask bs2) 0)
          (l2_apply_mask a2 (l2_index_mask bs2) (l2_offset_bits bs2)) + i) 0 =
      ((s2.data_mem.getD
          (l2_apply_mask a2 (l2_index_mask bs2) (l2_offset_bits bs2)) []).getD
        (s2.lru_mem.getD
          (l2_apply_mask a2 (l2_index_mask bs2) (l2_offset_bits bs2)) 0)
        []).getD i 0) := by
  refine ⟨?_, l2_flush_mm_spec bs2 h2ob h2ib s2 mm2 st2 a2 hidxt hidxl hrow
    hrowd hmm2 hpw hc2⟩
  rcases hbs1 with rfl | rfl | rfl | rfl | rfl | rfl <;>
    exact l1_flush_mm_spec _ (by decide) (by decide) (by decide) (by decide)
      s1 mm1 st1 a1 hdlen htlen hmm1 hc1

/-- Witness for `c5_flush_nonzero_writes_back`: `b1 = 4` over the dirty
slot-0 state, `b2 = 8` over the one-set dirty state; in both cases the
first flushed byte lands in MainMemory at the victim address. -/
theorem c5_flush_nonzero_writes_back_witness :
    (l1_flush_if_needed 4 mm_store_next l1_slot0_valid_dirty
        (memin_zero, initStats) 0).1.2.1.getD
      (l1_address_from_tag_index 4
        (l1_slot0_valid_dirty.tag_mem.getD (l1_address_to_block_num 4 0) 0 &&&
          l1_tag_mem_mask 4) (l1_address_to_block_num 4 0) + 0) 0 =
      l1_slot0_valid_dirty.data_mem.getD
        (l1_address_to_block_num 4 0 * 4 + 0) 0 ∧
    (l2_flush_if_needed 8 mm_store_next l2_small_dirty
        (memin_zero, initStats) 0).1.2.1.getD
      (l2_address_from_tag_index 8
        (l2_apply_mask ((l2_small_dirty.tag_mem.getD
            (l2_apply_mask 0 (l2_index_mask 8) (l2_offset_bits 8)) []).getD
          (l2_small_dirty.lru_mem.getD
            (l2_apply_mask 0 (l2_index_mask 8) (l2_offset_bits 8)) 0) 0)
          (l2_tag_mem_mask 8) 0)
        (l2_apply_mask 0 (l2_index_mask 8) (l2_offset_bits 8)) + 0) 0 =
      ((l2_small_dirty.data_mem.getD
          (l2_apply_mask 0 (l2_index_mask 8) (l2_offset_bits 8)) []).getD
        (l2_small_dirty.lru_mem.getD
          (l2_apply_mask 0 (l2_index_mask 8) (l2_offset_bits 8)) 0)
        []).getD 0 0 := by
  have hmlen : memin_zero.length = MAIN_MEM_SIZE_IN_BYTES :=
    List.length_replicate ..
  have h := c5_flush_nonzero_writes_back 4 (Or.inl rfl)
    l1_slot0_valid_dirty memin_zero initStats 0
    (by show (List.replicate 4096 (0 : Nat)).length = L1_CACHE_SIZE
        rw [List.length_replicate]
        rfl)
    (by show ((List.replicate 1024 (0 : Nat)).set 0 0x3000).length =
          l1_num_blocks 4
        rw [List.length_set, List.length_replicate]
        rfl)
    (by rw [hmlen]; decide)
    (by decide)
    8 (by decide) (by decide) l2_small_dirty memin_zero initStats 0
    (by decide) (by decide) (by decide) (by decide)
    (by rw [hmlen]; decide) (by decide) (by decide)
  exact ⟨h.1.2 0 (by decide), h.2.2 0 (by decide)⟩

/-- Effect of a fill (`l2_write` with `mark_dirty = false`) on the
addressed set: the entry `tag | valid` is stored at the LRU way, the
set's LRU bit flips, and the array lengths are unchanged. -/
theorem l2_write_fill_step (bs : Nat) (s : L2Core) (a n : Nat)
    (data : List Nat) (idx tg lru : Nat)
    (hidx : l2_apply_mask a (l2_index_mask bs) (l2_offset_bits bs) = idx)
    (htg : l2_apply_mask a (l2_tag_mask bs)
      (l2_offset_bits bs + l2_index_bits bs) = tg)
    (hlt : idx < s.tag_mem.length) (hll : idx < s.lru_mem.length)
    (hlru : s.lru_mem.getD idx 0 = lru) (hlru2 : lru < 2) :
    (l2_write bs s a false n data).1.tag_mem.getD idx [] =
      (s.tag_mem.getD idx []).set lru (tg ||| l2_valid_mask bs) ∧
    (l2_write bs s a false n data).1.lru_mem.getD idx 0 = 1 - lru ∧
    (l2_write bs s a false n data).1.tag_mem.length = s.tag_mem.length ∧
    (l2_write bs s a false n data).1.lru_mem.length = s.lru_mem.length := by
  have hway : way_idx ((s.lru_mem.getD idx 0 : Nat) : Int) = lru := by
    rw [hlru]
    simp [way_idx]
  have hcond : (((s.lru_mem.getD idx 0 : Nat) : Int) ==
      ((s.lru_mem.getD idx 0 : Nat) : Int)) = true := by
    simp
  refine ⟨?_, ?_, ?_, ?_⟩
  · simp only [l2_write, if_false, Bool.false_eq_true, hidx, htg, hcond,
      if_true, hway]
    rw [list_getD_set_self _ _ _ _ hlt]
  · simp only [l2_write, if_false, Bool.false_eq_true, hidx, hcond, if_true]
    rw [list_getD_set_self _ _ _ _ hll, hlru]
    have h2 : ((1 : Int) - ((lru : Nat) : Int)).toNat = 1 - lru := by
      omega
    exact h2
  · simp only [l2_write, List.length_set]
  · simp only [l2_write, if_false, Bool.false_eq_true, hidx, hcond, if_true,
      List.length_set]

/-- An address built by `l2_address_from_tag_index` decomposes back into
its tag and set index. -/
theorem l2_addr_from_fields (bs tg idx : Nat)
    (hib : 1 ≤ l2_index_bits bs) (htb : 1 ≤ l2_tag_bits bs)
    (hidx : idx < 2 ^ l2_index_bits bs) (htg : tg < 2 ^ l2_tag_bits bs) :
    l2_apply_mask (l2_address_from_tag_index bs tg idx) (l2_index_mask bs)
      (l2_offset_bits bs) = idx ∧
    l2_apply_mask (l2_address_from_tag_index bs tg idx) (l2_tag_mask bs)
      (l2_offset_bits bs + l2_index_bits bs) = tg := by
  constructor
  · unfold l2_apply_mask l2_index_mask l2_address_from_tag_index
    rw [create_mask_eq _ _ hib,
      extract_mid tg idx (l2_offset_bits bs) (l2_index_bits bs) hidx,
      shiftLeft_shiftRight_self]
  · unfold l2_apply_mask l2_tag_mask l2_address_from_tag_index
    rw [create_mask_eq _ _ htb]
    have hlow : idx <<< l2_offset_bits bs <
        2 ^ (l2_offset_bits bs + l2_index_bits bs) := by
      rw [Nat.shiftLeft_eq, Nat.pow_add, Nat.mul_comm (2 ^ l2_offset_bits bs)]
      exact Nat.mul_lt_mul_of_lt_of_le hidx (Nat.le_refl _)
        (Nat.pos_pow_of_pos _ (by omega))
    rw [extract_top tg _ _ _ htg hlow, shiftLeft_shiftRight_self]

/-- A clean entry `t | valid_mask` reads back as valid with tag `t`. -/
theorem l2_entry_clean_fields (bs t : Nat) (htb : 1 ≤ l2_tag_bits bs)
    (ht : t < 2 ^ l2_tag_bits bs) :
    l2_apply_mask (t ||| l2_valid_mask bs) (l2_valid_mask bs)
      (l2_valid_bit_index bs) = 1 ∧
    l2_apply_mask (t ||| l2_valid_mask bs) (l2_tag_mem_mask bs) 0 = t := by
  have hvm : l2_valid_mask bs = 2 ^ (l2_tag_bits bs + 1) := create_mask_one _
  have htm : l2_tag_mem_mask bs = 2 ^ l2_tag_bits bs - 1 := by
    unfold l2_tag_mem_mask
    rw [create_mask_eq _ _ htb, Nat.shiftLeft_zero]
  constructor
  · unfold l2_apply_mask l2_valid_bit_index
    rw [hvm]
    exact entry_valid t (l2_tag_bits bs)
  · unfold l2_apply_mask
    rw [hvm, htm, Nat.shiftRight_zero]
    exact entry_low t (l2_tag_bits bs) ht

/-- The entry 0 (invalid) reads back as not valid. -/
theorem l2_entry_zero_invalid (bs : Nat) :
    l2_apply_mask 0 (l2_valid_mask bs) (l2_valid_bit_index bs) = 0 := by
  unfold l2_apply_mask
  rw [Nat.zero_and, Nat.zero_shiftRight]

/-- C7: in the 2-way L2 (all `lru[set]` initialized to 0), filling three
blocks with pairwise distinct tags `A`, `B`, `C` mapping to the same set,
in that order, evicts `A`'s block on `C`'s fill while `B`'s survives:
afterwards `is_present(A) = false`, `is_present(B) = true`,
`is_present(C) = true` — each fill goes to the way `lru[set]` designates
and flips `lru[set]` to the other way. -/
theorem c7_two_way_lru_fill_eviction (bs : Nat)
    (hib : 1 ≤ l2_index_bits bs) (htb : 1 ≤ l2_tag_bits bs)
    (hnl : l2_num_lines bs = 2 ^ l2_index_bits bs)
    (tA tB tC sIdx : Nat)
    (htA : tA < 2 ^ l2_tag_bits bs) (htB : tB < 2 ^ l2_tag_bits bs)
    (htC : tC < 2 ^ l2_tag_bits bs)
    (hAB : tA ≠ tB) (hAC : tA ≠ tC) (hBC : tB ≠ tC)
    (hs : sIdx < 2 ^ l2_index_bits bs)
    (n : Nat) (dA dB dC : List Nat) :
    l2_is_present bs ((l2_write bs ((l2_write bs ((l2_write bs (l2_init bs) (l2_address_from_tag_index bs tA sIdx) false n dA).1) (l2_address_from_tag_index bs tB sIdx) false n dB).1) (l2_address_from_tag_index bs tC sIdx) false n dC).1) (l2_address_from_tag_index bs tA sIdx) = false ∧
    l2_is_present bs ((l2_write bs ((l2_write bs ((l2_write bs (l2_init bs) (l2_address_from_tag_index bs tA sIdx) false n dA).1) (l2_address_from_tag_index bs tB sIdx) false n dB).1) (l2_address_from_tag_index bs tC sIdx) false n dC).1) (l2_address_from_tag_index bs tB sIdx) = true ∧
    l2_is_present bs ((l2_write bs ((l2_write bs ((l2_write bs (l2_init bs) (l2_address_from_tag_index bs tA sIdx) false n dA).1) (l2_address_from_tag_index bs tB sIdx) false n dB).1) (l2_address_from_tag_index bs tC sIdx) false n dC).1) (l2_address_from_tag_index bs tC sIdx) = true := by
  have hfA := l2_addr_from_fields bs tA sIdx hib htb hs htA
  have hfB := l2_addr_from_fields bs tB sIdx hib htb hs htB
  have hfC := l2_addr_from_fields bs tC sIdx hib htb hs htC
  have hslt : sIdx < l2_num_lines bs := by rw [hnl]; exact hs
  have hT0len : (l2_init bs).tag_mem.length = l2_num_lines bs :=
    List.length_replicate ..
  have hL0len : (l2_init bs).lru_mem.length = l2_num_lines bs :=
    List.length_replicate ..
  have hT0row : (l2_init bs).tag_mem.getD sIdx [] = [0, 0] :=
    list_getD_replicate (l2_num_lines bs) sIdx
      (List.replicate L2_NUM_OF_WAYS 0) [] hslt
  have hL0 : (l2_init bs).lru_mem.getD sIdx 0 = 0 :=
    list_getD_replicate (l2_num_lines bs) sIdx 0 0 hslt
  have hstepA := l2_write_fill_step bs (l2_init bs) (l2_address_from_tag_index bs tA sIdx) n dA sIdx tA 0
    hfA.1 hfA.2 (by rw [hT0len]; exact hslt) (by rw [hL0len]; exact hslt)
    hL0 (by omega)
  have hrow1 : ((l2_write bs (l2_init bs) (l2_address_from_tag_index bs tA sIdx) false n dA).1).tag_mem.getD sIdx [] =
      [tA ||| l2_valid_mask bs, 0] := by
    rw [hstepA.1, hT0row]
    rfl
  have hlru1 : ((l2_write bs (l2_init bs) (l2_address_from_tag_index bs tA sIdx) false n dA).1).lru_mem.getD sIdx 0 = 1 := by
    rw [hstepA.2.1]
  have hstepB := l2_write_fill_step bs ((l2_write bs (l2_init bs) (l2_address_from_tag_index bs tA sIdx) false n dA).1) (l2_address_from_tag_index bs tB sIdx) n dB sIdx tB 1
    hfB.1 hfB.2 (by rw [hstepA.2.2.1, hT0len]; exact hslt)
    (by rw [hstepA.2.2.2, hL0len]; exact hslt) hlru1 (by omega)
  have hrow2 : ((l2_write bs ((l2_write bs (l2_init bs) (l2_address_from_tag_index bs tA sIdx) false n dA).1) (l2_address_from_tag_index bs tB sIdx) false n dB).1).tag_mem.getD sIdx [] =
      [tA ||| l2_valid_mask bs, tB ||| l2_valid_mask bs] := by
    rw [hstepB.1, hrow1]
    rfl
  have hlru2 : ((l2_write bs ((l2_write bs (l2_init bs) (l2_address_from_tag_index bs tA sIdx) false n dA).1) (l2_address_from_tag_index bs tB sIdx) false n dB).1).lru_mem.getD sIdx 0 = 0 := by rw [hstepB.2.1]
  have hstepC := l2_write_fill_step bs ((l2_write bs ((l2_write bs (l2_init bs) (l2_address_from_tag_index bs tA sIdx) false n dA).1) (l2_address_from_tag_index bs tB sIdx) false n dB).1) (l2_address_from_tag_index bs tC sIdx) n dC sIdx tC 0
    hfC.1 hfC.2
    (by rw [hstepB.2.2.1, hstepA.2.2.1, hT0len]; exact hslt)
    (by rw [hstepB.2.2.2, hstepA.2.2.2, hL0len]; exact hslt) hlru2 (by omega)
  have hrow3 : ((l2_write bs ((l2_write bs ((l2_write bs (l2_init bs) (l2_address_from_tag_index bs tA sIdx) false n dA).1) (l2_address_from_tag_index bs tB sIdx) false n dB).1) (l2_address_from_tag_index bs tC sIdx) false n dC).1).tag_mem.getD sIdx [] =
      [tC ||| l2_valid_mask bs, tB ||| l2_valid_mask bs] := by
    rw [hstepC.1, hrow2]
    rfl
  have heC := l2_entry_clean_fields bs tC htb htC
  have heB := l2_entry_clean_fields bs tB htb htB
  have hpA : l2_present_in_way bs ((l2_write bs ((l2_write bs ((l2_write bs (l2_init bs) (l2_address_from_tag_index bs tA sIdx) false n dA).1) (l2_address_from_tag_index bs tB sIdx) false n dB).1) (l2_address_from_tag_index bs tC sIdx) false n dC).1) (l2_address_from_tag_index bs tA sIdx) = -1 := by
    simp only [l2_present_in_way, hfA.1, hfA.2, hrow3, List.getD_cons_zero,
      List.getD_cons_succ, heC.1, heC.2, heB.1, heB.2]
    have h1 : (tA == tC) = false := beq_eq_false_iff_ne.mpr hAC
    have h2 : (tA == tB) = false := beq_eq_false_iff_ne.mpr hAB
    simp [h1, h2]
  have hpB : l2_present_in_way bs ((l2_write bs ((l2_write bs ((l2_write bs (l2_init bs) (l2_address_from_tag_index bs tA sIdx) false n dA).1) (l2_address_from_tag_index bs tB sIdx) false n dB).1) (l2_address_from_tag_index bs tC sIdx) false n dC).1) (l2_address_from_tag_index bs tB sIdx) = 1 := by
    simp only [l2_present_in_way, hfB.1, hfB.2, hrow3, List.getD_cons_zero,
      List.getD_cons_succ, heC.1, heC.2, heB.1, heB.2]
    have h1 : (tB == tC) = false := beq_eq_false_iff_ne.mpr hBC
    simp [h1]
  have hpC : l2_present_in_way bs ((l2_write bs ((l2_write bs ((l2_write bs (l2_init bs) (l2_address_from_tag_index bs tA sIdx) false n dA).1) (l2_address_from_tag_index bs tB sIdx) false n dB).1) (l2_address_from_tag_index bs tC sIdx) false n dC).1) (l2_address_from_tag_index bs tC sIdx) = 0 := by
    simp only [l2_present_in_way, hfC.1, hfC.2, hrow3, List.getD_cons_zero,
      List.getD_cons_succ, heC.1, heC.2, heB.1, heB.2]
    simp
  refine ⟨?_, ?_, ?_⟩
  · simp [l2_is_present, hpA]
  · simp [l2_is_present, hpB]
  · simp [l2_is_present, hpC]

/-- Witness for `c7_two_way_lru_fill_eviction`: `b2 = 8`, tags 1, 2, 3
filled into set 0. -/
theorem c7_two_way_lru_fill_eviction_witness :
    l2_is_present 8 ((l2_write 8 ((l2_write 8 ((l2_write 8 (l2_init 8) (l2_address_from_tag_index 8 1 0) false 8 (List.replicate 8 0)).1) (l2_address_from_tag_index 8 2 0) false 8 (List.replicate 8 0)).1) (l2_address_from_tag_index 8 3 0) false 8 (List.replicate 8 0)).1) (l2_address_from_tag_index 8 1 0) = false ∧
    l2_is_present 8 ((l2_write 8 ((l2_write 8 ((l2_write 8 (l2_init 8) (l2_address_from_tag_index 8 1 0) false 8 (List.replicate 8 0)).1) (l2_address_from_tag_index 8 2 0) false 8 (List.replicate 8 0)).1) (l2_address_from_tag_index 8 3 0) false 8 (List.replicate 8 0)).1) (l2_address_from_tag_index 8 2 0) = true ∧
    l2_is_present 8 ((l2_write 8 ((l2_write 8 ((l2_write 8 (l2_init 8) (l2_address_from_tag_index 8 1 0) false 8 (List.replicate 8 0)).1) (l2_address_from_tag_index 8 2 0) false 8 (List.replicate 8 0)).1) (l2_address_from_tag_index 8 3 0) false 8 (List.replicate 8 0)).1) (l2_address_from_tag_index 8 3 0) = true :=
  c7_two_way_lru_fill_eviction 8 (by decide) (by decide) (by decide)
    1 2 3 0 (by decide) (by decide) (by decide) (by decide) (by decide)
    (by decide) (by decide) 8 (List.replicate 8 0) (List.replicate 8 0) (List.replicate 8 0)

/-- C10: for a present address, `L1Cache.read` leaves the entire state
unchanged (the method performs no assignment at any level), while
`L2Cache.read` leaves every data and tag array unchanged and modifies at
most `lru_mem[index(a)]`, which it either leaves alone or flips to the
other way. -/
theorem c10_read_frame_effects (bs1 : Nat) (s1 : L1Core) (a1 n1 : Nat)
    (_h1 : l1_is_present bs1 s1 a1 = true)
    (bs2 : Nat) (s2 : L2Core) (a2 n2 : Nat)
    (_h2 : l2_is_present bs2 s2 a2 = true) :
    (l1_read bs1 s1 a1 n1).2 = s1 ∧
    (l2_read bs2 s2 a2 n2).2.data_mem = s2.data_mem ∧
    (l2_read bs2 s2 a2 n2).2.tag_mem = s2.tag_mem ∧
    (∀ j, j ≠ l2_apply_mask a2 (l2_index_mask bs2) (l2_offset_bits bs2) →
      (l2_read bs2 s2 a2 n2).2.lru_mem.getD j 0 = s2.lru_mem.getD j 0) ∧
    ((l2_read bs2 s2 a2 n2).2.lru_mem = s2.lru_mem ∨
      (l2_read bs2 s2 a2 n2).2.lru_mem = s2.lru_mem.set
        (l2_apply_mask a2 (l2_index_mask bs2) (l2_offset_bits bs2))
        (1 - l2_present_in_way bs2 s2 a2).toNat) := by
  refine ⟨rfl, (l2_read_frame bs2 s2 a2 n2).1,
    (l2_read_frame bs2 s2 a2 n2).2.1,
    (l2_read_frame bs2 s2 a2 n2).2.2.2, ?_⟩
  by_cases h : ((s2.lru_mem.getD
      (l2_apply_mask a2 (l2_index_mask bs2) (l2_offset_bits bs2)) 0 : Int) ==
        l2_present_in_way bs2 s2 a2) = true
  · right
    simp only [l2_read, h, if_true]
  · left
    simp only [l2_read, h, if_false, Bool.false_eq_true]

/-- Witness for `c10_read_frame_effects`: a present L1 address in the
`b1 = 8` block state and a present L2 address in the one-set state. -/
theorem c10_read_frame_effects_witness :
    (l1_read 8 c2_block_state 4 4).2 = c2_block_state ∧
    (l2_read 8 l2_small_dirty 0 8).2.data_mem = l2_small_dirty.data_mem ∧
    (l2_read 8 l2_small_dirty 0 8).2.tag_mem = l2_small_dirty.tag_mem ∧
    (∀ j, j ≠ l2_apply_mask 0 (l2_index_mask 8) (l2_offset_bits 8) →
      (l2_read 8 l2_small_dirty 0 8).2.lru_mem.getD j 0 =
        l2_small_dirty.lru_mem.getD j 0) ∧
    ((l2_read 8 l2_small_dirty 0 8).2.lru_mem = l2_small_dirty.lru_mem ∨
      (l2_read 8 l2_small_dirty 0 8).2.lru_mem = l2_small_dirty.lru_mem.set
        (l2_apply_mask 0 (l2_index_mask 8) (l2_offset_bits 8))
        (1 - l2_present_in_way 8 l2_small_dirty 0).toNat) :=
  c10_read_frame_effects 8 c2_block_state 4 4 (by decide) 8 l2_small_dirty
    0 8 (by decide)
